import Mathlib

/-!
Verification of the machine-manager configuration resolver of Cura
(cura/Settings/MachineManager.py) against its specification.

The Python module is embedded shallowly: container stacks become records,
the manager's mutable fields become an explicit state record, and each
operation of the source becomes a pure state-transformer.  Qt signal
emissions are recorded in an event list.  External collaborators (the
profile catalog, the variant manager, the container registry) are passed
in explicitly as function-valued records, mirroring the narrow interfaces
the source consumes.

Python strings are compared lexicographically by code point; `charListLe`
below reproduces that order on Lean strings.  Python's `sorted` is
modelled by a stable insertion sort, and Python `set` values by
first-occurrence deduplicated lists.
-/

/-- One settings container (`InstanceContainer`): an immutable-id layer with
the metadata entries the machine manager reads (`quality_type`, `base_file`,
`compatible`).  Metadata irrelevant to the verified operations is omitted. -/
structure InstanceContainer where
  id : String
  name : String := ""
  quality_type : Option String := none
  base_file : Option String := none
  compatible : Bool := false
  deriving DecidableEq, Repr

/-- Sentinel from cura_empty_instance_containers: "no quality selected". -/
def empty_quality_container : InstanceContainer :=
  { id := "empty_quality", name := "Not Supported" }

/-- Sentinel: "no quality-changes selected". -/
def empty_quality_changes_container : InstanceContainer :=
  { id := "empty_quality_changes", name := "empty_quality_changes" }

/-- Sentinel: "no material selected". -/
def empty_material_container : InstanceContainer :=
  { id := "empty_material", name := "empty_material" }

/-- Sentinel: "no variant selected". -/
def empty_variant_container : InstanceContainer :=
  { id := "empty_variant", name := "empty_variant" }

/-- A catalog container node (`ContainerNode`): may or may not resolve to an
actual container (`getContainer()` returning `None` is modelled by `none`);
carries the `base_file` metadata entry read by `_setMaterial`. -/
structure ContainerNode where
  container : Option InstanceContainer := none
  base_file : Option String := none
  deriving DecidableEq, Repr

/-- A quality group: one coherent quality selection across the global stack
and the extruders (cura/Machines/QualityGroup.py, consumed by the manager). -/
structure QualityGroup where
  name : String := ""
  quality_type : String
  is_available : Bool := true
  node_for_global : Option ContainerNode := none
  nodes_for_extruders : List (String × ContainerNode) := []
  deriving DecidableEq, Repr

/-- A quality-changes group: user-customised overrides tagged with the
quality type they derive from (cura/Machines/QualityChangesGroup.py). -/
structure QualityChangesGroup where
  name : String := ""
  quality_type : String
  node_for_global : Option ContainerNode := none
  nodes_for_extruders : List (String × ContainerNode) := []
  deriving DecidableEq, Repr

/-- One extruder stack: the containers and flags the verified operations
touch.  `compatibleMaterialDiameter` models
`ExtruderStack.getCompatibleMaterialDiameter()`; `definitionName` models
`extruder.definition.getName()` (used for user-facing notices). -/
structure ExtruderStack where
  variant : InstanceContainer := empty_variant_container
  material : InstanceContainer := empty_material_container
  quality : InstanceContainer := empty_quality_container
  qualityChanges : InstanceContainer := empty_quality_changes_container
  isEnabled : Bool := true
  compatibleMaterialDiameter : Nat := 285
  definitionName : String := ""
  deriving DecidableEq, Repr

/-- The global stack.  `extruders` is the position-keyed mapping (Python
dict in insertion order); `definitionChangesProps` holds the values written
into the definition-changes layer; `preferred_quality_type` and
`has_materials` are the metadata entries the manager reads. -/
structure GlobalStack where
  id : String := ""
  definitionId : String := ""
  definitionName : String := ""
  variant : InstanceContainer := empty_variant_container
  quality : InstanceContainer := empty_quality_container
  qualityChanges : InstanceContainer := empty_quality_changes_container
  extruders : List (String × ExtruderStack) := []
  has_materials : Bool := true
  preferred_quality_type : Option String := none
  definitionChangesIsEmpty : Bool := false
  definitionChangesProps : List (String × Int) := []
  deriving DecidableEq, Repr

/-- The change notifications the manager emits (pyqtSignal declarations). -/
inductive MMEvent where
  | activeQualityGroupChanged
  | activeQualityChangesGroupChanged
  | rootMaterialChanged
  | extruderChanged
  | numberExtrudersEnabledChanged
  | activeVariantChanged
  | globalContainerStackChanged
  | blurSettings
  deriving DecidableEq, Repr

/-- The machine manager's mutable state: the active global stack, the
current quality / quality-changes group references, the root-material-id
cache, the default extruder position, the log of emitted notifications and
the user-visible notice produced by `applyRemoteConfiguration`. -/
structure MMState where
  global : Option GlobalStack := none
  currentQualityGroup : Option QualityGroup := none
  currentQualityChangesGroup : Option QualityChangesGroup := none
  currentRootMaterialId : List (String × Option String) := []
  defaultExtruderPosition : String := "0"
  events : List MMEvent := []
  noticeShown : Bool := false
  noticeExtruders : List String := []
  deriving DecidableEq, Repr

/-- Dictionary lookup on an association list (Python `dict.get`). -/
def alookup {α : Type} (l : List (String × α)) (k : String) : Option α :=
  (l.find? (fun p => p.1 = k)).map (fun p => p.2)

/-- In-place update of one dictionary entry (`d[k].field = v` patterns);
entries with other keys are untouched, a missing key updates nothing. -/
def aupdate {α : Type} (l : List (String × α)) (k : String) (f : α → α) :
    List (String × α) :=
  l.map (fun p => if p.1 = k then (p.1, f p.2) else p)

/-- Append one emitted notification to the state's event log. -/
def emit (e : MMEvent) (s : MMState) : MMState :=
  { s with events := s.events ++ [e] }

/-- Code-point lexicographic order on char lists: the order Python uses to
compare strings (`<`, `sorted`, `min`). -/
def charListLe : List Char → List Char → Bool
  | [], _ => true
  | _ :: _, [] => false
  | a :: as, b :: bs =>
    if a < b then true
    else if b < a then false
    else charListLe as bs

/-- Python string comparison `a <= b`. -/
def strLe (a b : String) : Bool := charListLe a.data b.data

/-- Stable insertion into a sorted list (helper for `isort`). -/
def isortInsert {α : Type} (le : α → α → Bool) (x : α) : List α → List α
  | [] => [x]
  | y :: ys => if le x y then x :: y :: ys else y :: isortInsert le x ys

/-- Stable sort; models Python's `sorted` (which is also stable). -/
def isort {α : Type} (le : α → α → Bool) : List α → List α
  | [] => []
  | x :: xs => isortInsert le x (isort le xs)

/-- Smallest element under `le`, first occurrence on ties: `sorted(l)[0]`
and `min(l)` for Python (partial there on empty input, `none` here). -/
def minBy {α : Type} (le : α → α → Bool) : List α → Option α
  | [] => none
  | x :: xs => some (xs.foldl (fun a b => if le a b then a else b) x)

/-- First-occurrence deduplication: converts a list of added elements to
the contents of the Python `set` built from them. -/
def pyDedup : List Nat → List Nat → List Nat
  | [], _ => []
  | x :: xs, seen =>
    if x ∈ seen then pyDedup xs seen else x :: pyDedup xs (x :: seen)

/-- Python truthiness of an optional string: `x and x != ""`. -/
def presentStr : Option String → Bool
  | none => false
  | some s => s ≠ ""

/-- Source: MachineManager._setEmptyQuality (MachineManager.py 1140-1152).
Clears the current group references and resets the quality and
quality-changes containers of the global stack and of every extruder stack
to the empty sentinels, then emits both group-changed notifications. -/
def setEmptyQuality (s : MMState) : MMState :=
  match s.global with
  | none => s
  | some g =>
    let g' := { g with
      quality := empty_quality_container,
      qualityChanges := empty_quality_changes_container,
      extruders := g.extruders.map (fun p =>
        (p.1, { p.2 with
          quality := empty_quality_container,
          qualityChanges := empty_quality_changes_container })) }
    { s with
      global := some g',
      currentQualityGroup := none,
      currentQualityChangesGroup := none,
      events := s.events ++
        [MMEvent.activeQualityGroupChanged,
         MMEvent.activeQualityChangesGroupChanged] }

/-- The global container of a quality group, when its node resolves. -/
def qualityGroupGlobalContainer (qg : QualityGroup) : Option InstanceContainer :=
  qg.node_for_global.bind (fun n => n.container)

/-- Applies a group's per-position quality nodes to the extruder mapping
(the loop at MachineManager.py 1177-1180).  The source iterates the group's
nodes assigning into the extruder dict, so for each extruder the last node
with its position wins; the reverse-order lookup reproduces that.  All
nodes are known to resolve when this runs (checked at 1163-1165). -/
def applyQualityNodes (nodes : List (String × ContainerNode))
    (empty_quality_changes : Bool) (exts : List (String × ExtruderStack)) :
    List (String × ExtruderStack) :=
  exts.map (fun p =>
    match alookup nodes.reverse p.1 with
    | some node =>
      (p.1, { p.2 with
        quality := node.container.getD empty_quality_container,
        qualityChanges :=
          if empty_quality_changes then empty_quality_changes_container
          else p.2.qualityChanges })
    | none => p)

/-- Source: MachineManager._setQualityGroup (MachineManager.py 1154-1183).
A `none` group resets everything to the empty quality state; a group whose
global node or any extruder node does not resolve is a no-op; otherwise the
group's containers are applied to the global stack and the extruders, the
quality-changes slots are reset when `empty_quality_changes` is set, and
both group-changed notifications are emitted. -/
def setQualityGroupImpl (quality_group : Option QualityGroup)
    (empty_quality_changes : Bool) (s : MMState) : MMState :=
  match s.global with
  | none => s
  | some g =>
    match quality_group with
    | none => setEmptyQuality s
    | some qg =>
      match qualityGroupGlobalContainer qg with
      | none => s
      | some gcont =>
        if qg.nodes_for_extruders.all (fun p => p.2.container.isSome) then
          let g' := { g with
            quality := gcont,
            qualityChanges :=
              if empty_quality_changes then empty_quality_changes_container
              else g.qualityChanges,
            extruders :=
              applyQualityNodes qg.nodes_for_extruders empty_quality_changes
                g.extruders }
          { s with
            global := some g',
            currentQualityGroup := some qg,
            currentQualityChangesGroup :=
              if empty_quality_changes then none
              else s.currentQualityChangesGroup,
            events := s.events ++
              [MMEvent.activeQualityGroupChanged,
               MMEvent.activeQualityChangesGroupChanged] }
        else s

/-- Source: MachineManager.setQualityGroup (MachineManager.py 1554-1578),
active-machine path: blur the settings fields, then `_setQualityGroup`
with the default `empty_quality_changes = True` inside a batched scope.
(The discard-or-keep dialog only opens a UI screen.) -/
def setQualityGroup (quality_group : Option QualityGroup) (s : MMState) :
    MMState :=
  setQualityGroupImpl quality_group true (emit MMEvent.blurSettings s)

/-- Source: MachineManager._fixQualityChangesGroupToNotSupported
(MachineManager.py 1185-1191): permanently downgrades the group's stored
quality type, writing `not_supported` into its containers' metadata. -/
def fixQualityChangesGroupToNotSupported (qcg : QualityChangesGroup) :
    QualityChangesGroup :=
  { qcg with
    quality_type := "not_supported",
    node_for_global := qcg.node_for_global.map (fun n =>
      { n with container := n.container.map (fun c =>
        { c with quality_type := some "not_supported" }) }),
    nodes_for_extruders := qcg.nodes_for_extruders.map (fun p =>
      (p.1, { p.2 with container := p.2.container.map (fun c =>
        { c with quality_type := some "not_supported" }) })) }

/-- Source: MachineManager._setQualityChangesGroup (MachineManager.py
1193-1235).  `qualityGroups` is the answer of
`QualityManager.getQualityGroups` for the active stack.  Reads the group's
quality type; unless it is `not_supported`, looks up the matching quality
group, downgrading the quality-changes group to `not_supported` when the
lookup misses; then applies the quality-changes containers (falling back to
the empty sentinel per unresolved position) alongside the matching quality
containers, records both current group references and emits both
group-changed notifications. -/
def setQualityChangesGroupImpl (qualityGroups : List (String × QualityGroup))
    (quality_changes_group : QualityChangesGroup) (s : MMState) : MMState :=
  match s.global with
  | none => s
  | some g =>
    let quality_type := quality_changes_group.quality_type
    let lookupResult : Option QualityGroup :=
      if quality_type ≠ "not_supported" then alookup qualityGroups quality_type
      else none
    let qcg :=
      if quality_type ≠ "not_supported" ∧ lookupResult.isNone then
        fixQualityChangesGroupToNotSupported quality_changes_group
      else quality_changes_group
    let quality_group := lookupResult
    let gqc :=
      match qcg.node_for_global.bind (fun n => n.container) with
      | some c => c
      | none => empty_quality_changes_container
    let gq :=
      match quality_group.bind qualityGroupGlobalContainer with
      | some c => c
      | none => empty_quality_container
    let exts := g.extruders.map (fun p =>
      let qcn := alookup qcg.nodes_for_extruders p.1
      let qn := quality_group.bind (fun grp => alookup grp.nodes_for_extruders p.1)
      let qcc :=
        match qcn.bind (fun n => n.container) with
        | some c => c
        | none => empty_quality_changes_container
      let qc :=
        match qn.bind (fun n => n.container) with
        | some c => c
        | none => empty_quality_container
      (p.1, { p.2 with quality := qc, qualityChanges := qcc }))
    { s with
      global := some { g with quality := gq, qualityChanges := gqc, extruders := exts },
      currentQualityGroup := quality_group,
      currentQualityChangesGroup := some qcg,
      events := s.events ++
        [MMEvent.activeQualityGroupChanged,
         MMEvent.activeQualityChangesGroupChanged] }

/-- Source: MachineManager.activeMaterialsCompatible (MachineManager.py
1264-1273): on a machine with materials, every enabled extruder's material
must carry a truthy `compatible` metadata entry. -/
def activeMaterialsCompatible (g : GlobalStack) : Bool :=
  if g.has_materials then
    g.extruders.all (fun p => !p.2.isEnabled || p.2.material.compatible)
  else true

/-- The quality types whose groups the catalog reports as available
(the set comprehension at MachineManager.py 1284). -/
def availableQualityTypes (qualityGroups : List (String × QualityGroup)) :
    List String :=
  (qualityGroups.filter (fun p => p.2.is_available)).map (fun p => p.1)

/-- Source: MachineManager._updateQualityWithMaterial (MachineManager.py
1276-1313).  Incompatible materials force the empty quality (when a quality
type was selected); an empty set of available types forces it too unless a
quality-changes selection is active; an available current type is reapplied
preserving quality-changes; otherwise the preferred quality type, or the
smallest available type, is applied as a fresh selection.  The two `| none`
legs after the lookups are unreachable: the looked-up key is always an
available key of `qualityGroups`. -/
def updateQualityWithMaterial (qualityGroups : List (String × QualityGroup))
    (s : MMState) : MMState :=
  match s.global with
  | none => s
  | some g =>
    let current_quality_type : Option String :=
      s.currentQualityGroup.map (fun q => q.quality_type)
    let available := availableQualityTypes qualityGroups
    if !(activeMaterialsCompatible g) then
      if current_quality_type.isSome then setEmptyQuality s else s
    else if available.isEmpty then
      if s.currentQualityChangesGroup.isNone then setEmptyQuality s else s
    else if (match current_quality_type with
             | some ct => available.contains ct
             | none => false) then
      match current_quality_type with
      | some ct =>
        (match alookup qualityGroups ct with
         | some qg => setQualityGroupImpl (some qg) false s
         | none => s)
      | none => s
    else
      let fallback_type := (minBy strLe available).getD ""
      let quality_type :=
        match g.preferred_quality_type with
        | some pt => if available.contains pt then pt else fallback_type
        | none => fallback_type
      match alookup qualityGroups quality_type with
      | some qg => setQualityGroupImpl (some qg) true s
      | none => s

/-- Source: MachineManager.hasNotSupportedQuality (MachineManager.py
1620-1622): no current quality group and no current quality-changes group. -/
def hasNotSupportedQuality (s : MMState) : Bool :=
  s.currentQualityGroup.isNone && s.currentQualityChangesGroup.isNone

/-- The profile catalog's material interface (cura/Machines/MaterialManager,
consumed by the manager; see spec section 6).  `getAvailableMaterials` is
keyed by machine definition, nozzle name, build-plate name and diameter and
returns a base-file-id keyed map; `getDefaultMaterial` is keyed by machine,
position and nozzle name; `getMaterialNodeByType` resolves a material by
nozzle, build plate and GUID for `applyRemoteConfiguration`. -/
structure MaterialCatalog where
  getAvailableMaterials :
    String → Option String → Option String → Nat → List (String × ContainerNode)
  getDefaultMaterial : String → String → Option String → Option ContainerNode
  getMaterialNodeByType :
    String → String → Option String → Option String → Option String →
      Option ContainerNode

/-- The variant manager interface (cura/Machines/VariantManager): nozzle
variants by exact name, build-plate variants by name. -/
structure VariantCatalog where
  getVariantNode : String → Option String → Option ContainerNode
  getBuildplateVariantNode : String → Option String → Option ContainerNode

/-- Value of the root-material-id cache at a position (`None` when the
position holds the empty sentinel; the cache is filled for every position
on activation, a missing key reads as unset here). -/
def getRootMaterialId (m : List (String × Option String)) (pos : String) :
    Option String :=
  (alookup m pos).getD none

/-- Write one entry of the root-material-id cache. -/
def setRootMaterialIdEntry (m : List (String × Option String)) (pos : String)
    (v : Option String) : List (String × Option String) :=
  if (m.find? (fun p => p.1 = pos)).isSome then
    m.map (fun p => if p.1 = pos then (p.1, v) else p)
  else m ++ [(pos, v)]

/-- Source: MachineManager._setMaterial (MachineManager.py 1250-1262).
A resolvable node installs its container and caches its `base_file`
metadata; anything else installs the empty sentinel and caches `None`.
The root-material-changed notification fires only if the cached id
actually changed. -/
def setMaterialImpl (position : String) (container_node : Option ContainerNode)
    (s : MMState) : MMState :=
  match s.global with
  | none => s
  | some g =>
    let chosen : InstanceContainer × Option String :=
      match container_node with
      | some n =>
        (match n.container with
         | some c => (c, n.base_file)
         | none => (empty_material_container, none))
      | none => (empty_material_container, none)
    let g' := { g with
      extruders := aupdate g.extruders position
        (fun e => { e with material := chosen.1 }) }
    let s' := { s with global := some g' }
    if chosen.2 ≠ getRootMaterialId s.currentRootMaterialId position then
      { s' with
        currentRootMaterialId :=
          setRootMaterialIdEntry s.currentRootMaterialId position chosen.2,
        events := s'.events ++ [MMEvent.rootMaterialChanged] }
    else s'

/-- Loop body of MachineManager.updateMaterialWithVariant (MachineManager.py
1327-1354) for one position: query the catalog with the current nozzle,
build plate and diameter; no candidates installs the empty sentinel; a
candidate matching the current material's base family installs that
candidate; otherwise the catalog's default material is installed when the
catalog returns one (and nothing happens when it does not).  The
`buildplate_name` is computed once before the loop (1323-1325) and passed
in.  A position missing from the extruder dict would raise in the source;
it is a no-op here and is excluded by hypothesis in the theorems. -/
def updateMaterialWithVariantOne (cat : MaterialCatalog)
    (buildplate_name : Option String) (position_item : String) (s : MMState) :
    MMState :=
  match s.global with
  | none => s
  | some g =>
    match alookup g.extruders position_item with
    | none => s
    | some extruder =>
      let current_material_base_name := extruder.material.base_file
      let current_nozzle_name : Option String :=
        if extruder.variant.id ≠ empty_variant_container.id then
          some extruder.variant.name
        else none
      let candidate_materials := cat.getAvailableMaterials g.definitionId
        current_nozzle_name buildplate_name extruder.compatibleMaterialDiameter
      if candidate_materials.isEmpty then
        setMaterialImpl position_item none s
      else
        match current_material_base_name.bind
            (fun b => alookup candidate_materials b) with
        | some new_material => setMaterialImpl position_item (some new_material) s
        | none =>
          match cat.getDefaultMaterial g.definitionId position_item
              current_nozzle_name with
          | some material_node => setMaterialImpl position_item (some material_node) s
          | none => s

/-- Source: MachineManager.updateMaterialWithVariant (MachineManager.py
1315-1354): reconcile the material of one position, or of every position
when `none` is given. -/
def updateMaterialWithVariant (cat : MaterialCatalog) (position : Option String)
    (s : MMState) : MMState :=
  match s.global with
  | none => s
  | some g =>
    let position_list : List String :=
      match position with
      | none => g.extruders.map (fun p => p.1)
      | some p => [p]
    let buildplate_name : Option String :=
      if g.variant.id ≠ "empty_variant" then some g.variant.name else none
    position_list.foldl
      (fun acc p => updateMaterialWithVariantOne cat buildplate_name p acc) s

/-- Source: MachineManager._setVariantNode (MachineManager.py 1237-1241):
no-op unless the node resolves; otherwise installs the nozzle variant and
emits the variant-changed notification. -/
def setVariantNodeImpl (position : String) (container_node : ContainerNode)
    (s : MMState) : MMState :=
  match s.global with
  | none => s
  | some g =>
    match container_node.container with
    | none => s
    | some c =>
      emit MMEvent.activeVariantChanged
        { s with global := some { g with
            extruders := aupdate g.extruders position
              (fun e => { e with variant := c }) } }

/-- Source: MachineManager._setGlobalVariant (MachineManager.py 1243-1248):
installs the node's container as the global (build-plate) variant, falling
back to the empty sentinel when the node does not resolve. -/
def setGlobalVariantImpl (container_node : ContainerNode) (s : MMState) :
    MMState :=
  match s.global with
  | none => s
  | some g =>
    { s with global := some { g with
        variant := container_node.container.getD empty_variant_container } }

/-- Direct assignment of an extruder's variant container (the `else` leg at
MachineManager.py 1438). -/
def assignExtruderVariant (position : String) (c : InstanceContainer)
    (s : MMState) : MMState :=
  match s.global with
  | none => s
  | some g =>
    { s with global := some { g with
        extruders := aupdate g.extruders position
          (fun e => { e with variant := c }) } }

/-- Direct assignment of an extruder's material container (the `else` leg at
MachineManager.py 1443, which bypasses `_setMaterial` and the root cache). -/
def assignExtruderMaterial (position : String) (c : InstanceContainer)
    (s : MMState) : MMState :=
  match s.global with
  | none => s
  | some g =>
    { s with global := some { g with
        extruders := aupdate g.extruders position
          (fun e => { e with material := c }) } }

/-- Set an extruder's enabled flag (`ExtruderStack.setEnabled`). -/
def assignExtruderEnabled (position : String) (b : Bool) (s : MMState) :
    MMState :=
  match s.global with
  | none => s
  | some g =>
    { s with global := some { g with
        extruders := aupdate g.extruders position
          (fun e => { e with isEnabled := b }) } }

/-- Source: MachineManager.updateDefaultExtruder (MachineManager.py
996-1008): walk the extruders in ascending order of their string position
keys, take the first enabled one (default "0" when none is enabled) and
emit the extruder-changed notification only when the position changed. -/
def updateDefaultExtruder (s : MMState) : MMState :=
  match s.global with
  | none => s
  | some g =>
    let extruder_items := isort (fun p q => strLe p.1 q.1) g.extruders
    let new_default_position :=
      match extruder_items.find? (fun p => p.2.isEnabled) with
      | some p => p.1
      | none => "0"
    if new_default_position ≠ s.defaultExtruderPosition then
      { s with
        defaultExtruderPosition := new_default_position,
        events := s.events ++ [MMEvent.extruderChanged] }
    else s

/-- Python `int(...)` on a decimal position key. -/
def posToNat (p : String) : Nat := p.toNat?.getD 0

/-- `machine_extruder_count` as resolved through the stack; the
definition-changes value when written, else the definition default of 1. -/
def machineExtruderCount (g : GlobalStack) : Int :=
  (alookup g.definitionChangesProps "machine_extruder_count").getD 1

/-- Write one property value into the definition-changes layer. -/
def setDefinitionChangesProp (g : GlobalStack) (k : String) (v : Int) :
    GlobalStack :=
  { g with definitionChangesProps :=
      if (g.definitionChangesProps.find? (fun p => p.1 = k)).isSome then
        g.definitionChangesProps.map (fun p => if p.1 = k then (p.1, v) else p)
      else g.definitionChangesProps ++ [(k, v)] }

/-- Source: MachineManager.updateNumberExtrudersEnabled (MachineManager.py
1010-1021): count the enabled extruders whose position is below the
machine's extruder count and write it to the definition-changes layer when
it differs from the stored value (an unset stored value always differs). -/
def updateNumberExtrudersEnabled (s : MMState) : MMState :=
  match s.global with
  | none => s
  | some g =>
    let cnt := machineExtruderCount g
    let extruder_count : Int :=
      Int.ofNat ((g.extruders.filter
        (fun p => p.2.isEnabled && Int.ofNat (posToNat p.1) < cnt)).length)
    if alookup g.definitionChangesProps "extruders_enabled_count" ≠
        some extruder_count then
      let g' := setDefinitionChangesProp g "extruders_enabled_count" extruder_count
      emit MMEvent.numberExtrudersEnabledChanged { s with global := some g' }
    else s

/-- Source: MachineManager.setActiveMachineExtruderCount (MachineManager.py
932-987).  No active stack, an empty definition-changes sentinel, or an
unchanged count are no-ops before anything is written.  Otherwise the new
count is written and the default/enabled bookkeeping reruns; the
per-setting scrub (`correctExtruderSettings`), the scene-node extruder
reassignment and the per-extruder user-setting migration act on the scene
and on per-setting property collaborators outside this state model, and the
global-stack-changed notification closes the operation. -/
def setActiveMachineExtruderCount (extruder_count : Int) (s : MMState) :
    MMState :=
  match s.global with
  | none => s
  | some g =>
    if g.definitionChangesIsEmpty then s
    else
      let previous_extruder_count := machineExtruderCount g
      if extruder_count = previous_extruder_count then s
      else
        let g' := setDefinitionChangesProp g "machine_extruder_count" extruder_count
        let s1 := { s with global := some g' }
        let s2 := updateNumberExtrudersEnabled (updateDefaultExtruder s1)
        emit MMEvent.globalContainerStackChanged s2

/-- Direct assignment of the global (build-plate) variant container (the
`else` legs at MachineManager.py 1455 and 1457). -/
def assignGlobalVariant (c : InstanceContainer) (s : MMState) : MMState :=
  match s.global with
  | none => s
  | some g => { s with global := some { g with variant := c } }

/-- One reported extruder (ExtruderConfigurationModel as consumed here:
position, hotend id, material GUID; cloud printers report `None` for
missing values, local ones empty strings — both count as absent). -/
structure ExtruderConfiguration where
  position : Nat
  hotendID : Option String := none
  materialGuid : Option String := none
  deriving DecidableEq, Repr

/-- A reported printer configuration (PrinterConfigurationModel). -/
structure PrinterConfiguration where
  printerType : String := ""
  buildplateConfiguration : Option String := none
  extruderConfigurations : List ExtruderConfiguration := []
  deriving DecidableEq, Repr

/-- The per-extruder body of `applyRemoteConfiguration` (MachineManager.py
1417-1445), threading `(state, need_to_show_message,
disabled_used_extruder_position_set)`; `toDisable` is the already-computed
disable set. -/
def applyRemoteExtruderStep (mcat : MaterialCatalog) (vcat : VariantCatalog)
    (definitionId : String) (buildplate : Option String) (toDisable : List Nat)
    (acc : MMState × Bool × List Nat) (ec : ExtruderConfiguration) :
    MMState × Bool × List Nat :=
  let position := toString ec.position
  if ec.position ∈ toDisable then
    (assignExtruderEnabled position false acc.1, true,
     if ec.position ∈ acc.2.2 then acc.2.2 else acc.2.2 ++ [ec.position])
  else
    let variant_container_node := vcat.getVariantNode definitionId ec.hotendID
    let material_container_node := mcat.getMaterialNodeByType definitionId
      position ec.hotendID buildplate ec.materialGuid
    let st :=
      match variant_container_node with
      | some vn => setVariantNodeImpl position vn acc.1
      | none => assignExtruderVariant position empty_variant_container acc.1
    let st :=
      match material_container_node with
      | some mn => setMaterialImpl position (some mn) st
      | none => assignExtruderMaterial position empty_material_container st
    let st := assignExtruderEnabled position true st
    let st := updateMaterialWithVariant mcat (some position) st
    (st, acc.2.1, acc.2.2)

/-- The build-plate resolution step of `applyRemoteConfiguration`
(MachineManager.py 1450-1458): a reported build plate resolves through the
variant manager, anything else resets the global variant to the empty
sentinel. -/
def remoteBuildplateStep (vcat : VariantCatalog) (defId : String)
    (bpc : Option String) (s : MMState) : MMState :=
  match bpc with
  | some _ =>
    (match vcat.getBuildplateVariantNode defId bpc with
     | some node => setGlobalVariantImpl node s
     | none => assignGlobalVariant empty_variant_container s)
  | none => assignGlobalVariant empty_variant_container s

/-- Source: MachineManager.applyRemoteConfiguration (MachineManager.py
1389-1477).  `switchPrinterType` returns immediately when the reported type
matches the active machine's definition name (1362); reconciling to a
different printer type switches machines and is outside this model, so the
mismatching case is a no-op here.  Extruders reporting no hotend or no
material become disable candidates; when every extruder would be disabled
the lowest reported position is exempted; candidates are disabled, the rest
get their variant and material resolved, are enabled, and re-run the
material reconciliation; then the default/enabled bookkeeping reruns, the
build plate is resolved, the quality reconciliation reruns, and one notice
listing the disabled extruders by definition name is shown when any
extruder was disabled.  (The discard-or-keep dialog only opens a UI
screen.) -/
def applyRemoteConfiguration (mcat : MaterialCatalog) (vcat : VariantCatalog)
    (qualityGroups : List (String × QualityGroup))
    (configuration : PrinterConfiguration) (s : MMState) : MMState :=
  match s.global with
  | none => s
  | some g =>
    if configuration.printerType ≠ g.definitionName then s
    else
      let s0 := emit MMEvent.blurSettings s
      let extruders_to_disable0 := pyDedup
        ((configuration.extruderConfigurations.filter
          (fun e => !(presentStr e.hotendID) || !(presentStr e.materialGuid))).map
          (fun e => e.position)) []
      let extruders_to_disable :=
        if extruders_to_disable0.length = g.extruders.length then
          match minBy (fun a b => a ≤ b) extruders_to_disable0 with
          | some m => extruders_to_disable0.erase m
          | none => extruders_to_disable0
        else extruders_to_disable0
      let res := configuration.extruderConfigurations.foldl
        (applyRemoteExtruderStep mcat vcat g.definitionId
          configuration.buildplateConfiguration extruders_to_disable)
        (s0, false, [])
      let st := updateNumberExtrudersEnabled (updateDefaultExtruder res.1)
      let st := remoteBuildplateStep vcat g.definitionId
        configuration.buildplateConfiguration st
      let st := updateQualityWithMaterial qualityGroups st
      if res.2.1 then
        let names := (isort (fun a b => a ≤ b) res.2.2).map (fun p =>
          ((alookup g.extruders (toString p)).map
            (fun e => e.definitionName)).getD "")
        { st with noticeShown := true, noticeExtruders := names }
      else st

/-- Quality restoration ladder of MachineManager._initMachineState
(MachineManager.py 306-344), run on machine activation after the root
material snapshot and the per-position material reconciliation (297-304),
neither of which touches the quality selection.  `qualityGroups` and
`qualityChangesGroups` are the catalog's answers for this stack. -/
def initMachineQuality (qualityGroups : List (String × QualityGroup))
    (qualityChangesGroups : List (String × QualityChangesGroup))
    (s : MMState) : MMState :=
  match s.global with
  | none => s
  | some g =>
    let quality_type := g.quality.quality_type
    let global_quality_changes_name := g.qualityChanges.name
    let fallback := fun (_ : Unit) =>
      let preferred := g.preferred_quality_type.bind
        (fun pt => alookup qualityGroups pt)
      let quality_group : Option QualityGroup :=
        match preferred with
        | some qg => some qg
        | none => (qualityGroups.head?).map (fun p => p.2)
      setQualityGroupImpl quality_group true s
    if g.qualityChanges.id ≠ "empty_quality_changes" then
      match alookup qualityChangesGroups global_quality_changes_name with
      | some qcg => setQualityChangesGroupImpl qualityGroups qcg s
      | none => fallback ()
    else
      match quality_type.bind (fun qt => alookup qualityGroups qt) with
      | some qg => setQualityGroupImpl (some qg) true s
      | none => fallback ()

/-- The reconciliation operations that (re)settle the quality selection:
a direct quality selection, a quality-changes selection, the
material/variant/extruder-enable triggered requality
(`_updateQualityWithMaterial`), and the activation ladder.  Each carries
the catalog answers it consumes. -/
inductive ReconcileOp where
  | setQuality (quality_group : Option QualityGroup)
  | setQualityChanges (qualityGroups : List (String × QualityGroup))
      (group : QualityChangesGroup)
  | requality (qualityGroups : List (String × QualityGroup))
  | activate (qualityGroups : List (String × QualityGroup))
      (qualityChangesGroups : List (String × QualityChangesGroup))
  deriving Repr

/-- Apply one reconciliation operation. -/
def applyReconcile : ReconcileOp → MMState → MMState
  | ReconcileOp.setQuality qg, s => setQualityGroup qg s
  | ReconcileOp.setQualityChanges qgs grp, s => setQualityChangesGroupImpl qgs grp s
  | ReconcileOp.requality qgs, s => updateQualityWithMaterial qgs s
  | ReconcileOp.activate qgs qcgs, s => initMachineQuality qgs qcgs s

/-- A machine stack as the registry sees it for removal purposes: its id,
its optional network group id, and whether it passes the structural
validation `setActiveMachine` performs (`CuraContainerStack.isValid`,
external to this module; spec section 4.1: activation aborts on a stack
failing structural validation). -/
structure Machine where
  id : String
  group_id : Option String := none
  valid : Bool := true
  deriving DecidableEq, Repr

/-- Registry plus active-machine slot, the state `removeMachine` acts on. -/
structure RegistryState where
  registry : List Machine
  active : Option String := none
  deriving DecidableEq, Repr

/-- The externally observable actions of a removal, in execution order. -/
inductive RemovalEvent where
  | activate (id : String)
  | removeExtruders (machine : String)
  | removeUserContainer (machine : String)
  | removeStack (machine : String)
  deriving DecidableEq, Repr

/-- Source: MachineManager.setActiveMachine (MachineManager.py 346-378) at
the registry/active-slot level of abstraction: a missing stack is a silent
no-op, a stack failing validation aborts leaving the previous machine
active, and otherwise the stack becomes the active machine.  The quality
and material re-derivation it performs touches neither the registry nor
the active slot. -/
def setActiveMachineR (stack_id : String) (s : RegistryState) :
    RegistryState × List RemovalEvent :=
  match s.registry.find? (fun m => m.id = stack_id) with
  | none => (s, [])
  | some m =>
    if m.valid then
      ({ s with active := some stack_id }, [RemovalEvent.activate stack_id])
    else (s, [])

/-- Source: MachineManager.removeMachine (MachineManager.py 790-817), with
recursion bounded by explicit fuel (each step removes one machine from the
registry, so `registry.length` steps always suffice; `none` models the
source raising on a missing id or running past the bound).  If the removed
machine is active, another machine from the registry (the first other one,
matching the metadata query order) is activated first when one exists;
then the machine's extruder stacks, its user containers and the stack
itself are removed; finally any machine sharing the removed machine's
group id is removed recursively.  `removeMachineStep1` is the activation
phase at the top of the source function (MachineManager.py 795-801): when
the machine being removed is active, the first other machine of the
registry is activated. -/
def removeMachineStep1 (machine_id : String) (s : RegistryState) :
    RegistryState × List RemovalEvent :=
  if s.active = some machine_id then
    match (s.registry.filter (fun m => m.id ≠ machine_id)).head? with
    | some other => setActiveMachineR other.id s
    | none => (s, [])
  else (s, [])

def removeMachineGo (fuel : Nat) (machine_id : String) (s : RegistryState) :
    Option (RegistryState × List RemovalEvent) :=
  match fuel with
  | 0 => none
  | fuel' + 1 =>
    let step1 := removeMachineStep1 machine_id s
    match step1.1.registry.find? (fun m => m.id = machine_id) with
    | none => none
    | some metadata =>
      let removalEvents :=
        [RemovalEvent.removeExtruders machine_id,
         RemovalEvent.removeUserContainer machine_id,
         RemovalEvent.removeStack machine_id]
      let s2 : RegistryState :=
        { step1.1 with
          registry := step1.1.registry.filter (fun m => m.id ≠ machine_id) }
      match metadata.group_id with
      | none => some (s2, step1.2 ++ removalEvents)
      | some gid =>
        match (s2.registry.filter (fun m => m.group_id = some gid)).head? with
        | none => some (s2, step1.2 ++ removalEvents)
        | some hidden =>
          match removeMachineGo fuel' hidden.id s2 with
          | none => none
          | some r => some (r.1, step1.2 ++ removalEvents ++ r.2)

/-- `removeMachine` with enough fuel for any input. -/
def removeMachine (machine_id : String) (s : RegistryState) :
    Option (RegistryState × List RemovalEvent) :=
  removeMachineGo (s.registry.length + 1) machine_id s

/-- Replay the effect of a removal trace on the active-machine slot:
only activations change it. -/
def replayActive (a : Option String) (tr : List RemovalEvent) : Option String :=
  tr.foldl (fun acc e =>
    match e with
    | RemovalEvent.activate i => some i
    | _ => acc) a

/-- The three state flags of the spec's claimed invariant, in order:
quality group set, quality-changes group set, `hasNotSupportedQuality`. -/
def qualityStateFlags (s : MMState) : List Bool :=
  [s.currentQualityGroup.isSome, s.currentQualityChangesGroup.isSome,
   hasNotSupportedQuality s]

/-- The three machine quality states as they actually partition: a
quality-changes selection (under which the underlying quality group may
also be set), a plain quality selection, and the not-supported state. -/
def qualityStatePartition (s : MMState) : List Bool :=
  [s.currentQualityChangesGroup.isSome,
   s.currentQualityChangesGroup.isNone && s.currentQualityGroup.isSome,
   hasNotSupportedQuality s]

/-- In the not-supported state every quality and quality-changes container
of the active machine is the empty sentinel. -/
def noQualityEmpty (s : MMState) : Bool :=
  !(hasNotSupportedQuality s) ||
  (match s.global with
   | some g =>
     (g.quality == empty_quality_container) &&
     (g.qualityChanges == empty_quality_changes_container) &&
     g.extruders.all (fun p =>
       (p.2.quality == empty_quality_container) &&
       (p.2.qualityChanges == empty_quality_changes_container))
   | none => true)

/-- Whether a quality group's global node and all its extruder nodes
resolve to containers (the checks at MachineManager.py 1161-1165). -/
def qualityGroupResolvable (qg : QualityGroup) : Bool :=
  (qualityGroupGlobalContainer qg).isSome &&
  qg.nodes_for_extruders.all (fun p => p.2.container.isSome)

/-- The observable quality selection: the quality and quality-changes
containers of the global stack and of every extruder stack, plus the
current group references (the state the spec's idempotence and no-op
claims quantify over). -/
def qualitySelectionState (s : MMState) :
    Option (InstanceContainer × InstanceContainer ×
      List (String × InstanceContainer × InstanceContainer)) ×
    Option QualityGroup × Option QualityChangesGroup :=
  (s.global.map (fun g => (g.quality, g.qualityChanges,
     g.extruders.map (fun p => (p.1, p.2.quality, p.2.qualityChanges)))),
   s.currentQualityGroup, s.currentQualityChangesGroup)

/-- The material container selected at a position. -/
def materialAt (s : MMState) (pos : String) : Option InstanceContainer :=
  s.global.bind (fun g => (alookup g.extruders pos).map (fun e => e.material))

/-- The enabled flag of the extruder at a position. -/
def enabledAt (s : MMState) (k : String) : Option Bool :=
  s.global.bind (fun g => (alookup g.extruders k).map (fun e => e.isEnabled))

/-- A resolvable global quality container for the demo "normal" group. -/
def normalGlobalNode : ContainerNode :=
  { container := some { id := "normal_q_global", quality_type := some "normal" } }

/-- A resolvable extruder quality container for the demo "normal" group. -/
def normalExtruderNode : ContainerNode :=
  { container := some { id := "normal_q_e0", quality_type := some "normal" } }

/-- Demo quality group of type "normal" with all nodes resolvable. -/
def qgNormal : QualityGroup :=
  { name := "Normal", quality_type := "normal",
    node_for_global := some normalGlobalNode,
    nodes_for_extruders := [("0", normalExtruderNode)] }

/-- Demo quality group of type "draft" with all nodes resolvable. -/
def qgDraft : QualityGroup :=
  { name := "Draft", quality_type := "draft",
    node_for_global :=
      some { container := some { id := "draft_q_global", quality_type := some "draft" } },
    nodes_for_extruders :=
      [("0", { container := some { id := "draft_q_e0", quality_type := some "draft" } })] }

/-- Demo catalog answer with both groups available. -/
def demoQualityGroups : List (String × QualityGroup) :=
  [("draft", qgDraft), ("normal", qgNormal)]

/-- Demo custom quality-changes group derived from "normal". -/
def qcgCustom : QualityChangesGroup :=
  { name := "my profile", quality_type := "normal",
    node_for_global := some { container := some { id := "custom_qc_global" } },
    nodes_for_extruders := [("0", { container := some { id := "custom_qc_e0" } })] }

/-- Demo extruder: enabled, compatible PLA loaded, 0.4 nozzle. -/
def demoExtruder : ExtruderStack :=
  { variant := { id := "aa04", name := "AA 0.4" },
    material := { id := "pla_aa04", base_file := some "pla", compatible := true },
    definitionName := "Extruder 1" }

/-- Demo single-extruder machine preferring draft quality. -/
def demoGlobalStack : GlobalStack :=
  { id := "m1", definitionId := "printer_a", definitionName := "Printer A",
    extruders := [("0", demoExtruder)],
    preferred_quality_type := some "draft",
    definitionChangesProps := [("machine_extruder_count", 1)] }

/-- Demo global stack with the "normal" quality containers applied. -/
def demoActiveGlobal : GlobalStack :=
  { demoGlobalStack with
    quality := { id := "normal_q_global", quality_type := some "normal" },
    extruders := [("0", { demoExtruder with
      quality := { id := "normal_q_e0", quality_type := some "normal" } })] }

/-- Demo manager state: active machine with the "normal" quality applied. -/
def demoState : MMState :=
  { global := some demoActiveGlobal,
    currentQualityGroup := some qgNormal,
    currentRootMaterialId := [("0", some "pla")] }

/-- A catalog answering every material query with nothing. -/
def emptyMaterialCatalog : MaterialCatalog :=
  { getAvailableMaterials := fun _ _ _ _ => [],
    getDefaultMaterial := fun _ _ _ => none,
    getMaterialNodeByType := fun _ _ _ _ _ => none }

/-- A variant catalog answering every query with nothing. -/
def emptyVariantCatalog : VariantCatalog :=
  { getVariantNode := fun _ _ => none,
    getBuildplateVariantNode := fun _ _ => none }

/-- An ABS-only candidate node (for the material reconciliation claims). -/
def absNode : ContainerNode :=
  { container := some { id := "abs_aa04", base_file := some "abs", compatible := true },
    base_file := some "abs" }

/-- A catalog whose only candidate family is ABS and with no default
material. -/
def absOnlyNoDefaultCatalog : MaterialCatalog :=
  { getAvailableMaterials := fun _ _ _ _ => [("abs", absNode)],
    getDefaultMaterial := fun _ _ _ => none,
    getMaterialNodeByType := fun _ _ _ _ _ => none }

/-- Remote snapshot reporting one extruder with no hotend and no material. -/
def remoteCfgOneEmpty : PrinterConfiguration :=
  { printerType := "Printer A",
    extruderConfigurations := [{ position := 0 }] }

/-- Remote snapshot reporting two extruders, both with no hotend and no
material (the spec's scenario). -/
def remoteCfgTwoEmpty : PrinterConfiguration :=
  { printerType := "Printer B",
    extruderConfigurations := [{ position := 0 }, { position := 1 }] }

/-- Demo two-extruder global stack for the remote-configuration scenario. -/
def demoTwoExtruderGlobal : GlobalStack :=
  { id := "m2", definitionId := "printer_b", definitionName := "Printer B",
    extruders := [("0", { demoExtruder with definitionName := "Extruder Left" }),
                  ("1", { demoExtruder with definitionName := "Extruder Right" })],
    definitionChangesProps := [("machine_extruder_count", 2)] }

/-- Demo two-extruder machine state for the remote-configuration scenario. -/
def demoTwoExtruderState : MMState :=
  { global := some demoTwoExtruderGlobal,
    currentRootMaterialId := [("0", some "pla"), ("1", some "pla")] }

/-- Demo registry for the removal scenario: the active machine and one
other valid machine, no network groups. -/
def demoRegistry : RegistryState :=
  { registry := [{ id := "m1" }, { id := "m2" }], active := some "m1" }

/-- The material container `updateMaterialWithVariant` leaves at a position,
as a function of the catalog answers and the extruder's pre-state (proved
equal to the source operation in `updateOne_spec` below). -/
def materialOutcome (cat : MaterialCatalog) (bp nozzle : Option String)
    (pos : String) (defId : String) (ext : ExtruderStack) : InstanceContainer :=
  let cands := cat.getAvailableMaterials defId nozzle bp
    ext.compatibleMaterialDiameter
  if cands.isEmpty then empty_material_container
  else
    match ext.material.base_file.bind (fun b => alookup cands b) with
    | some n =>
      (match n.container with
       | some c => c
       | none => empty_material_container)
    | none =>
      (match cat.getDefaultMaterial defId pos nozzle with
       | some n =>
         (match n.container with
          | some c => c
          | none => empty_material_container)
       | none => ext.material)

theorem alookup_nil {α : Type} (k : String) : alookup ([] : List (String × α)) k = none := rfl

theorem alookup_cons {α : Type} (p : String × α) (l : List (String × α)) (k : String) :
    alookup (p :: l) k = if p.1 = k then some p.2 else alookup l k := by
  by_cases h : p.1 = k <;> simp [alookup, List.find?_cons, h]

theorem qualitySelectionState_emit (e : MMEvent) (s : MMState) :
    qualitySelectionState (emit e s) = qualitySelectionState s := rfl

/-- C9: with an active global stack whose machine_extruder_count already
equals n, setActiveMachineExtruderCount n is a no-op: the state (containers
and notification log included) is returned unchanged. -/
theorem C9_extruder_count_noop (s : MMState) (g : GlobalStack) (n : Int)
    (hg : s.global = some g) (hc : machineExtruderCount g = n) :
    setActiveMachineExtruderCount n s = s := by
  unfold setActiveMachineExtruderCount
  rw [hg]
  simp [hc]

/-- C9 witness: a concrete two-extruder machine with the count already 2. -/
theorem C9_extruder_count_noop_witness :
    demoTwoExtruderState.global = some demoTwoExtruderGlobal ∧
    machineExtruderCount demoTwoExtruderGlobal = 2 ∧
    setActiveMachineExtruderCount 2 demoTwoExtruderState = demoTwoExtruderState :=
  ⟨rfl, by decide,
   C9_extruder_count_noop demoTwoExtruderState demoTwoExtruderGlobal 2 rfl (by decide)⟩

/-- C5 counterexample: on a machine with the "normal" quality applied,
`setQualityGroup(None)` is not a no-op — it changes the quality selection
(resetting it to the empty sentinels), contradicting the claim that a null
group is rejected with all containers and selections unchanged. -/
theorem C5_counterexample :
    (setQualityGroup none demoState).global.map (fun g => g.quality) ≠
      demoState.global.map (fun g => g.quality) := by decide

/-- C5 (amended): with an active machine, `setQualityGroup` with a group
whose global-container reference does not resolve is a no-op on the quality
selection; a null group is not rejected — it resets the machine to the
empty quality state: both current group references cleared and the quality
and quality-changes containers of the global stack and of every extruder
set to the empty sentinels. -/
theorem C5_amended (s : MMState) (g : GlobalStack) (q : QualityGroup)
    (hg : s.global = some g) :
    (qualityGroupGlobalContainer q = none →
      qualitySelectionState (setQualityGroup (some q) s) =
        qualitySelectionState s)
    ∧ ((setQualityGroup none s).currentQualityGroup = none ∧
       (setQualityGroup none s).currentQualityChangesGroup = none ∧
       ∃ g', (setQualityGroup none s).global = some g' ∧
         g'.quality = empty_quality_container ∧
         g'.qualityChanges = empty_quality_changes_container ∧
         ∀ p ∈ g'.extruders, p.2.quality = empty_quality_container ∧
           p.2.qualityChanges = empty_quality_changes_container) := by
  obtain ⟨glob, cqg, cqcg, crm, dep, ev, ns, nx⟩ := s
  obtain rfl : glob = some g := hg
  constructor
  · intro hq
    simp only [setQualityGroup, setQualityGroupImpl, emit, hq]
    rfl
  · refine ⟨rfl, rfl, _, rfl, rfl, rfl, ?_⟩
    intro p hp
    rcases List.mem_map.mp hp with ⟨q0, _, hq0⟩
    rw [← hq0]
    exact ⟨rfl, rfl⟩

/-- C5 witness: the amended behaviour at the demo state, with a group whose
global node is missing. -/
theorem C5_amended_witness :
    qualityGroupGlobalContainer { quality_type := "fast" } = none ∧
    qualitySelectionState
        (setQualityGroup (some { quality_type := "fast" }) demoState) =
      qualitySelectionState demoState ∧
    (setQualityGroup none demoState).currentQualityGroup = none := by
  refine ⟨by decide, ?_, ?_⟩
  · exact (C5_amended demoState _ { quality_type := "fast" } rfl).1 (by decide)
  · exact (C5_amended demoState _ { quality_type := "fast" } rfl).2.1

theorem applyQualityNodes_idem (nodes : List (String × ContainerNode))
    (eqc : Bool) (E : List (String × ExtruderStack)) :
    applyQualityNodes nodes eqc (applyQualityNodes nodes eqc E) =
      applyQualityNodes nodes eqc E := by
  unfold applyQualityNodes
  rw [List.map_map]
  apply List.map_congr_left
  intro p _
  simp only [Function.comp]
  cases h : alookup nodes.reverse p.1 with
  | none => simp [h]
  | some node =>
    simp only [h]
    cases eqc <;> rfl

theorem sentinel_map_idem (E : List (String × ExtruderStack)) :
    (E.map (fun p => (p.1, { p.2 with
        quality := empty_quality_container,
        qualityChanges := empty_quality_changes_container }))).map (fun p =>
      (p.1, { p.2 with
        quality := empty_quality_container,
        qualityChanges := empty_quality_changes_container })) =
    E.map (fun p => (p.1, { p.2 with
        quality := empty_quality_container,
        qualityChanges := empty_quality_changes_container })) := by
  rw [List.map_map]
  apply List.map_congr_left
  intro p _
  rfl

/-- C7: calling setQualityGroup with the same group twice in succession
leaves the same quality selection (containers on the global stack and on
every extruder, and both current group references) as calling it once. -/
theorem C7_setQualityGroup_idempotent (quality_group : Option QualityGroup)
    (s : MMState) :
    qualitySelectionState
        (setQualityGroup quality_group (setQualityGroup quality_group s)) =
      qualitySelectionState (setQualityGroup quality_group s) := by
  obtain ⟨glob, cqg, cqcg, crm, dep, ev, ns, nx⟩ := s
  cases glob with
  | none => cases quality_group <;> rfl
  | some g =>
    cases quality_group with
    | none =>
      simp only [setQualityGroup, setQualityGroupImpl, emit, setEmptyQuality,
        qualitySelectionState]
      rw [sentinel_map_idem]
    | some q =>
      cases hqc : qualityGroupGlobalContainer q with
      | none =>
        simp only [setQualityGroup, setQualityGroupImpl, emit, hqc]
        rfl
      | some gcont =>
        cases hall : q.nodes_for_extruders.all (fun p => p.2.container.isSome) with
        | false =>
          simp only [setQualityGroup, setQualityGroupImpl, emit, hqc, hall]
          rfl
        | true =>
          simp only [setQualityGroup, setQualityGroupImpl, emit, hqc, hall,
            if_true, qualitySelectionState]
          rw [applyQualityNodes_idem]

theorem qualityStatePartition_count (s : MMState) :
    (qualityStatePartition s).count true = 1 := by
  obtain ⟨glob, cqg, cqcg, crm, dep, ev, ns, nx⟩ := s
  cases cqg <;> cases cqcg <;> rfl

theorem noQualityEmpty_emit (e : MMEvent) (s : MMState) :
    noQualityEmpty (emit e s) = noQualityEmpty s := rfl

theorem noQualityEmpty_setEmptyQuality (s : MMState) :
    noQualityEmpty (setEmptyQuality s) = true := by
  obtain ⟨glob, cqg, cqcg, crm, dep, ev, ns, nx⟩ := s
  cases glob with
  | none => simp [setEmptyQuality, noQualityEmpty]
  | some g =>
    simp [setEmptyQuality, noQualityEmpty, hasNotSupportedQuality, List.all_map,
      Function.comp]

theorem noQualityEmpty_setQualityGroupImpl (qg : Option QualityGroup)
    (eqc : Bool) (s : MMState) (h : noQualityEmpty s = true) :
    noQualityEmpty (setQualityGroupImpl qg eqc s) = true := by
  obtain ⟨glob, cqg, cqcg, crm, dep, ev, ns, nx⟩ := s
  cases glob with
  | none => exact h
  | some g =>
    cases qg with
    | none => exact noQualityEmpty_setEmptyQuality _
    | some q =>
      cases hqc : qualityGroupGlobalContainer q with
      | none => simpa [setQualityGroupImpl, hqc] using h
      | some gcont =>
        cases hall : q.nodes_for_extruders.all (fun p => p.2.container.isSome) with
        | false => simpa [setQualityGroupImpl, hqc, hall] using h
        | true =>
          simp [setQualityGroupImpl, hqc, hall, noQualityEmpty,
            hasNotSupportedQuality]

theorem noQualityEmpty_setQualityChangesGroupImpl
    (qgs : List (String × QualityGroup)) (grp : QualityChangesGroup)
    (s : MMState) (h : noQualityEmpty s = true) :
    noQualityEmpty (setQualityChangesGroupImpl qgs grp s) = true := by
  obtain ⟨glob, cqg, cqcg, crm, dep, ev, ns, nx⟩ := s
  cases glob with
  | none => exact h
  | some g =>
    simp [setQualityChangesGroupImpl, noQualityEmpty, hasNotSupportedQuality]

theorem noQualityEmpty_updateQualityWithMaterial
    (qgs : List (String × QualityGroup)) (s : MMState)
    (h : noQualityEmpty s = true) :
    noQualityEmpty (updateQualityWithMaterial qgs s) = true := by
  obtain ⟨glob, cqg, cqcg, crm, dep, ev, ns, nx⟩ := s
  cases glob with
  | none => exact h
  | some g =>
    unfold updateQualityWithMaterial
    simp only
    repeat' split
    all_goals
      first
      | exact h
      | exact noQualityEmpty_setEmptyQuality _
      | exact noQualityEmpty_setQualityGroupImpl _ _ _ h

theorem noQualityEmpty_initMachineQuality
    (qgs : List (String × QualityGroup))
    (qcgs : List (String × QualityChangesGroup)) (s : MMState)
    (h : noQualityEmpty s = true) :
    noQualityEmpty (initMachineQuality qgs qcgs s) = true := by
  obtain ⟨glob, cqg, cqcg, crm, dep, ev, ns, nx⟩ := s
  cases glob with
  | none => exact h
  | some g =>
    unfold initMachineQuality
    simp only
    repeat' split
    all_goals
      first
      | exact h
      | exact noQualityEmpty_setEmptyQuality _
      | exact noQualityEmpty_setQualityGroupImpl _ _ _ h
      | exact noQualityEmpty_setQualityChangesGroupImpl _ _ _ h

theorem noQualityEmpty_applyReconcile (op : ReconcileOp) (s : MMState)
    (h : noQualityEmpty s = true) :
    noQualityEmpty (applyReconcile op s) = true := by
  cases op with
  | setQuality qg =>
    exact noQualityEmpty_setQualityGroupImpl qg true (emit MMEvent.blurSettings s)
      ((noQualityEmpty_emit _ s).trans h)
  | setQualityChanges qgs grp =>
    exact noQualityEmpty_setQualityChangesGroupImpl qgs grp s h
  | requality qgs => exact noQualityEmpty_updateQualityWithMaterial qgs s h
  | activate qgs qcgs => exact noQualityEmpty_initMachineQuality qgs qcgs s h

/-- C1 counterexample: `demoState` satisfies the claimed exactly-one-of
{quality set, quality-changes set, hasNotSupportedQuality} invariant, but
applying the reconciliation operation that selects a quality-changes group
whose quality type resolves in the catalog leaves BOTH a current quality
group and a current quality-changes group set (MachineManager.py
1232-1233), so the count of true flags is 2, not 1. -/
theorem C1_counterexample :
    (qualityStateFlags demoState).count true = 1 ∧
    (qualityStateFlags (applyReconcile
      (ReconcileOp.setQualityChanges demoQualityGroups qcgCustom)
      demoState)).count true ≠ 1 := by decide

/-- C1 (amended): after any sequence of reconciliation operations from a
state satisfying the not-supported-means-empty-sentinels invariant, exactly
one of the three machine quality states holds — a quality-changes selection
(under which the underlying quality group may ALSO be set), a plain quality
selection (quality group set, no quality-changes group), or
hasNotSupportedQuality (both unset) — never none of them; and the
not-supported state always coincides with the empty quality sentinels on
the global stack and on every extruder. -/
theorem C1_amended (ops : List ReconcileOp) (s0 : MMState)
    (h0 : noQualityEmpty s0 = true) :
    (qualityStatePartition
        (ops.foldl (fun st op => applyReconcile op st) s0)).count true = 1 ∧
    noQualityEmpty (ops.foldl (fun st op => applyReconcile op st) s0) = true := by
  refine ⟨qualityStatePartition_count _, ?_⟩
  induction ops generalizing s0 with
  | nil => exact h0
  | cons op rest ih => exact ih _ (noQualityEmpty_applyReconcile op s0 h0)

/-- C1 witness: the amended invariant evaluated across a concrete
reconciliation sequence (quality-changes selection then a requality pass)
from the demo state. -/
theorem C1_amended_witness :
    noQualityEmpty demoState = true ∧
    ((qualityStatePartition
        ([ReconcileOp.setQualityChanges demoQualityGroups qcgCustom,
          ReconcileOp.requality demoQualityGroups].foldl
          (fun st op => applyReconcile op st) demoState)).count true = 1 ∧
     noQualityEmpty
        ([ReconcileOp.setQualityChanges demoQualityGroups qcgCustom,
          ReconcileOp.requality demoQualityGroups].foldl
          (fun st op => applyReconcile op st) demoState) = true) :=
  ⟨by decide,
   C1_amended
     [ReconcileOp.setQualityChanges demoQualityGroups qcgCustom,
      ReconcileOp.requality demoQualityGroups] demoState (by decide)⟩

theorem charListLe_total (x y : List Char) :
    charListLe x y = true ∨ charListLe y x = true := by
  induction x generalizing y with
  | nil => left; rfl
  | cons a as ih =>
    cases y with
    | nil => right; rfl
    | cons b bs =>
      rcases lt_trichotomy a b with h | h | h
      · left; simp [charListLe, h]
      · subst h
        rcases ih bs with h2 | h2
        · left; simp [charListLe, lt_irrefl, h2]
        · right; simp [charListLe, lt_irrefl, h2]
      · right; simp [charListLe, h]

theorem charListLe_refl (x : List Char) : charListLe x x = true := by
  rcases charListLe_total x x with h | h <;> exact h

theorem charListLe_trans (x y z : List Char) (h1 : charListLe x y = true)
    (h2 : charListLe y z = true) : charListLe x z = true := by
  induction x generalizing y z with
  | nil => rfl
  | cons a as ih =>
    cases y with
    | nil => simp [charListLe] at h1
    | cons b bs =>
      cases z with
      | nil => simp [charListLe] at h2
      | cons c cs =>
        by_cases hab : a < b
        · by_cases hbc : b < c
          · have hac : a < c := lt_trans hab hbc
            simp [charListLe, hac]
          · by_cases hcb : c < b
            · simp [charListLe, hbc, hcb] at h2
            · have hbceq : b = c := le_antisymm (le_of_not_lt hcb) (le_of_not_lt hbc)
              subst hbceq
              simp [charListLe, hab]
        · by_cases hba : b < a
          · simp [charListLe, hab, hba] at h1
          · have habeq : a = b := le_antisymm (le_of_not_lt hba) (le_of_not_lt hab)
            subst habeq
            simp only [charListLe, lt_irrefl, if_false] at h1
            by_cases hac : a < c
            · simp [charListLe, hac]
            · by_cases hca : c < a
              · simp [charListLe, hac, hca] at h2
              · have haceq : a = c := le_antisymm (le_of_not_lt hca) (le_of_not_lt hac)
                subst haceq
                simp only [charListLe, lt_irrefl, if_false] at h2 ⊢
                exact ih bs cs h1 h2

theorem strLe_total (a b : String) : strLe a b = true ∨ strLe b a = true :=
  charListLe_total a.data b.data

theorem strLe_trans (a b c : String) (h1 : strLe a b = true)
    (h2 : strLe b c = true) : strLe a c = true :=
  charListLe_trans a.data b.data c.data h1 h2

theorem foldl_min_spec {α : Type} (le : α → α → Bool)
    (htot : ∀ a b, le a b = true ∨ le b a = true)
    (htrans : ∀ a b c, le a b = true → le b c = true → le a c = true)
    (xs : List α) (a : α) :
    le (xs.foldl (fun u v => if le u v then u else v) a) a = true ∧
    ∀ y ∈ xs, le (xs.foldl (fun u v => if le u v then u else v) a) y = true := by
  induction xs generalizing a with
  | nil =>
    refine ⟨?_, by intro y hy; cases hy⟩
    rcases htot a a with h | h <;> exact h
  | cons b bs ih =>
    simp only [List.foldl_cons]
    have hstep : le (if le a b then a else b) a = true ∧
        le (if le a b then a else b) b = true := by
      by_cases hab : le a b = true
      · refine ⟨?_, by simp [hab]⟩
        simp only [hab, if_true]
        rcases htot a a with h | h <;> exact h
      · have hba : le b a = true := by
          rcases htot a b with h | h
          · exact absurd h hab
          · exact h
        refine ⟨by simpa [hab] using hba, ?_⟩
        simp only [hab, if_false]
        rcases htot b b with h | h <;> exact h
    obtain ⟨ih1, ih2⟩ := ih (if le a b then a else b)
    refine ⟨htrans _ _ _ ih1 hstep.1, ?_⟩
    intro y hy
    rcases List.mem_cons.mp hy with rfl | hy'
    · exact htrans _ _ _ ih1 hstep.2
    · exact ih2 y hy'

theorem foldl_min_mem {α : Type} (le : α → α → Bool) (xs : List α) (a : α) :
    xs.foldl (fun u v => if le u v then u else v) a = a ∨
    xs.foldl (fun u v => if le u v then u else v) a ∈ xs := by
  induction xs generalizing a with
  | nil => left; rfl
  | cons b bs ih =>
    simp only [List.foldl_cons]
    rcases ih (if le a b then a else b) with h | h
    · rw [h]
      by_cases hab : le a b = true
      · left; simp [hab]
      · right; simp [hab]
    · right; exact List.mem_cons_of_mem _ h

theorem minBy_mem {α : Type} (le : α → α → Bool) (l : List α) (x : α)
    (h : minBy le l = some x) : x ∈ l := by
  cases l with
  | nil => cases h
  | cons a as =>
    have hx : as.foldl (fun u v => if le u v then u else v) a = x :=
      Option.some.inj h
    rcases foldl_min_mem le as a with h2 | h2
    · rw [← hx, h2]; exact List.mem_cons_self a as
    · rw [← hx]; exact List.mem_cons_of_mem _ h2

theorem minBy_le {α : Type} (le : α → α → Bool)
    (htot : ∀ a b, le a b = true ∨ le b a = true)
    (htrans : ∀ a b c, le a b = true → le b c = true → le a c = true)
    (l : List α) (x : α) (h : minBy le l = some x) :
    ∀ y ∈ l, le x y = true := by
  cases l with
  | nil => cases h
  | cons a as =>
    have hx : as.foldl (fun u v => if le u v then u else v) a = x :=
      Option.some.inj h
    obtain ⟨h1, h2⟩ := foldl_min_spec le htot htrans as a
    intro y hy
    rcases List.mem_cons.mp hy with rfl | hy'
    · rw [← hx]; exact h1
    · rw [← hx]; exact h2 y hy'

theorem alookup_eq_some_of_mem {α : Type} (l : List (String × α)) (k : String)
    (v : α) (hmem : (k, v) ∈ l) (hnd : (l.map (fun p => p.1)).Nodup) :
    alookup l k = some v := by
  induction l with
  | nil => cases hmem
  | cons p ps ih =>
    rcases List.mem_cons.mp hmem with h | h
    · rw [← h]
      simp [alookup_cons]
    · have hk : p.1 ≠ k := by
        intro he
        have hkin : k ∈ ps.map (fun p => p.1) :=
          List.mem_map.mpr ⟨(k, v), h, rfl⟩
        have hnin := (List.nodup_cons.mp hnd).1
        exact hnin (by simpa [he] using hkin)
      rw [alookup_cons, if_neg hk]
      exact ih h (List.nodup_cons.mp hnd).2

theorem mem_availableQualityTypes (qgs : List (String × QualityGroup))
    (qt : String) (h : qt ∈ availableQualityTypes qgs) :
    ∃ grp, (qt, grp) ∈ qgs ∧ grp.is_available = true := by
  rcases List.mem_map.mp h with ⟨p, hpf, hpe⟩
  rcases List.mem_filter.mp hpf with ⟨hpm, hpa⟩
  refine ⟨p.2, ?_, by simpa using hpa⟩
  have hpq : (qt, p.2) = p := by rw [← hpe]
  rw [hpq]
  exact hpm

theorem contains_iff_mem_str (l : List String) (a : String) :
    l.contains a = true ↔ a ∈ l := by simp

theorem mem_of_alookup_eq_some {α : Type} (l : List (String × α)) (k : String)
    (v : α) (h : alookup l k = some v) : (k, v) ∈ l := by
  unfold alookup at h
  rcases hf : l.find? (fun p => p.1 = k) with _ | p
  · rw [hf] at h; cases h
  · rw [hf] at h
    have hp := List.find?_some hf
    have hmem := List.mem_of_find?_eq_some hf
    have hv : p.2 = v := Option.some.inj h
    have hk : p.1 = k := by simpa using hp
    have hpe : (k, v) = p := by rw [← hk, ← hv]
    rw [hpe]
    exact hmem

/-- C2: with compatible materials, a non-empty set of available quality
types and a current quality type that is not among them,
`_updateQualityWithMaterial` selects the stack's preferred quality type
when it is available, and otherwise the smallest available quality type in
Python's code-point string order, and applies it as a fresh quality
selection: the chosen group becomes the current quality group, the
quality-changes selection is reset to none, and the global stack receives
the group's quality container alongside the empty quality-changes
sentinel.  The function is total, so no error is raised on this path. -/
theorem C2_quality_replacement (s : MMState) (g : GlobalStack)
    (qgs : List (String × QualityGroup))
    (hg : s.global = some g)
    (hcompat : activeMaterialsCompatible g = true)
    (hne : availableQualityTypes qgs ≠ [])
    (hnd : (qgs.map (fun p => p.1)).Nodup)
    (hres : ∀ p ∈ qgs, p.2.is_available = true →
      qualityGroupResolvable p.2 = true)
    (hcur : (match s.currentQualityGroup.map (fun q => q.quality_type) with
             | some ct => (availableQualityTypes qgs).contains ct
             | none => false) = false) :
    ∃ qt grp,
      alookup qgs qt = some grp ∧
      qt ∈ availableQualityTypes qgs ∧
      (∀ pt, g.preferred_quality_type = some pt →
        pt ∈ availableQualityTypes qgs → qt = pt) ∧
      ((∀ pt, g.preferred_quality_type = some pt →
          pt ∉ availableQualityTypes qgs) →
        ∀ x ∈ availableQualityTypes qgs, strLe qt x = true) ∧
      (updateQualityWithMaterial qgs s).currentQualityGroup = some grp ∧
      (updateQualityWithMaterial qgs s).currentQualityChangesGroup = none ∧
      (∃ g', (updateQualityWithMaterial qgs s).global = some g' ∧
        g'.qualityChanges = empty_quality_changes_container ∧
        qualityGroupGlobalContainer grp = some g'.quality) := by
  obtain ⟨glob, cqg, cqcg, crm, dep, ev, ns, nx⟩ := s
  obtain rfl : glob = some g := hg
  obtain ⟨m, hm⟩ : ∃ m, minBy strLe (availableQualityTypes qgs) = some m := by
    cases hA : availableQualityTypes qgs with
    | nil => exact absurd hA hne
    | cons a as =>
      exact ⟨as.foldl (fun u v => if strLe u v then u else v) a, rfl⟩
  have hmmem : m ∈ availableQualityTypes qgs := minBy_mem _ _ _ hm
  have hmle : ∀ x ∈ availableQualityTypes qgs, strLe m x = true :=
    minBy_le strLe strLe_total strLe_trans _ _ hm
  have hisE : (availableQualityTypes qgs).isEmpty = false := by
    cases hA : availableQualityTypes qgs with
    | nil => exact absurd hA hne
    | cons a as => rfl
  obtain ⟨qt, hqtdef, hqtmem, hqtpref, hqtmin⟩ :
      ∃ qt, (match g.preferred_quality_type with
         | some pt => if (availableQualityTypes qgs).contains pt then pt else m
         | none => m) = qt ∧
        qt ∈ availableQualityTypes qgs ∧
        (∀ pt, g.preferred_quality_type = some pt →
          pt ∈ availableQualityTypes qgs → qt = pt) ∧
        ((∀ pt, g.preferred_quality_type = some pt →
            pt ∉ availableQualityTypes qgs) →
          ∀ x ∈ availableQualityTypes qgs, strLe qt x = true) := by
    cases hpref : g.preferred_quality_type with
    | none =>
      refine ⟨m, rfl, hmmem, ?_, fun _ => hmle⟩
      intro pt h
      cases h
    | some pt =>
      by_cases hc : (availableQualityTypes qgs).contains pt = true
      · have hcm : pt ∈ availableQualityTypes qgs :=
          (contains_iff_mem_str _ _).mp hc
        refine ⟨pt, by simp [hcm], hcm, ?_, ?_⟩
        · intro pt' h _
          exact Option.some.inj h
        · intro hnone
          exact absurd hcm (hnone pt rfl)
      · have hnm : pt ∉ availableQualityTypes qgs := fun h2 =>
          hc ((contains_iff_mem_str _ _).mpr h2)
        refine ⟨m, by simp [hnm], hmmem, ?_, fun _ => hmle⟩
        intro pt' h hmem'
        obtain rfl : pt = pt' := Option.some.inj h
        exact absurd hmem' hnm
  obtain ⟨grp, hmemA, hav⟩ := mem_availableQualityTypes qgs qt hqtmem
  have hlk : alookup qgs qt = some grp := alookup_eq_some_of_mem _ _ _ hmemA hnd
  have hgres : qualityGroupResolvable grp = true := hres (qt, grp) hmemA hav
  obtain ⟨hgs, hall⟩ : (qualityGroupGlobalContainer grp).isSome = true ∧
      grp.nodes_for_extruders.all (fun p => p.2.container.isSome) = true := by
    simpa [qualityGroupResolvable] using hgres
  obtain ⟨gcont, hgc⟩ : ∃ c, qualityGroupGlobalContainer grp = some c := by
    rcases hoc : qualityGroupGlobalContainer grp with _ | c
    · rw [hoc] at hgs; cases hgs
    · exact ⟨c, rfl⟩
  have hcur' : (match cqg.map (fun q => q.quality_type) with
      | some ct => (availableQualityTypes qgs).contains ct
      | none => false) = false := hcur
  have hred : updateQualityWithMaterial qgs
      ⟨some g, cqg, cqcg, crm, dep, ev, ns, nx⟩ =
      setQualityGroupImpl (some grp) true
        ⟨some g, cqg, cqcg, crm, dep, ev, ns, nx⟩ := by
    unfold updateQualityWithMaterial
    simp only [hcompat, Bool.not_true, hisE, hm, Option.getD_some, hqtdef, hlk,
      hcur', Bool.false_eq_true, if_false]
  have hq : (setQualityGroupImpl (some grp) true
        ⟨some g, cqg, cqcg, crm, dep, ev, ns, nx⟩).currentQualityGroup = some grp ∧
      (setQualityGroupImpl (some grp) true
        ⟨some g, cqg, cqcg, crm, dep, ev, ns, nx⟩).currentQualityChangesGroup = none ∧
      ∃ g', (setQualityGroupImpl (some grp) true
        ⟨some g, cqg, cqcg, crm, dep, ev, ns, nx⟩).global = some g' ∧
        g'.qualityChanges = empty_quality_changes_container ∧
        g'.quality = gcont := by
    simp [setQualityGroupImpl, hgc, hall]
  refine ⟨qt, grp, hlk, hqtmem, hqtpref, hqtmin, ?_, ?_, ?_⟩
  · rw [hred]
    exact hq.1
  · rw [hred]
    exact hq.2.1
  · rw [hred]
    obtain ⟨g', hgl, hqce, hquality⟩ := hq.2.2
    refine ⟨g', hgl, hqce, ?_⟩
    rw [hgc, hquality]

/-- C2 witness: the spec's scenario — active quality "normal", catalog now
offering only "draft" (which is also the machine's preferred type) — at
concrete inputs. -/
theorem C2_quality_replacement_witness :
    demoState.global = some demoActiveGlobal ∧
    activeMaterialsCompatible demoActiveGlobal = true ∧
    (∃ qt grp,
      alookup [("draft", qgDraft)] qt = some grp ∧
      qt ∈ availableQualityTypes [("draft", qgDraft)] ∧
      (∀ pt, demoActiveGlobal.preferred_quality_type = some pt →
        pt ∈ availableQualityTypes [("draft", qgDraft)] → qt = pt) ∧
      ((∀ pt, demoActiveGlobal.preferred_quality_type = some pt →
          pt ∉ availableQualityTypes [("draft", qgDraft)]) →
        ∀ x ∈ availableQualityTypes [("draft", qgDraft)], strLe qt x = true) ∧
      (updateQualityWithMaterial [("draft", qgDraft)]
          demoState).currentQualityGroup = some grp ∧
      (updateQualityWithMaterial [("draft", qgDraft)]
          demoState).currentQualityChangesGroup = none ∧
      (∃ g', (updateQualityWithMaterial [("draft", qgDraft)]
          demoState).global = some g' ∧
        g'.qualityChanges = empty_quality_changes_container ∧
        qualityGroupGlobalContainer grp = some g'.quality)) :=
  ⟨rfl, by decide,
   C2_quality_replacement demoState demoActiveGlobal [("draft", qgDraft)] rfl
     (by decide) (by decide) (by decide) (by decide) (by decide)⟩

theorem isortInsert_perm {α : Type} (le : α → α → Bool) (x : α) (l : List α) :
    (isortInsert le x l).Perm (x :: l) := by
  induction l with
  | nil => exact List.Perm.refl _
  | cons y ys ih =>
    unfold isortInsert
    by_cases h : le x y = true
    · simp only [h, if_true]
      exact List.Perm.refl _
    · simp only [h, if_false]
      exact (List.Perm.cons y ih).trans (List.Perm.swap x y ys)

theorem isort_perm {α : Type} (le : α → α → Bool) (l : List α) :
    (isort le l).Perm l := by
  induction l with
  | nil => exact List.Perm.refl _
  | cons x xs ih =>
    unfold isort
    exact (isortInsert_perm le x (isort le xs)).trans (List.Perm.cons x ih)

theorem isortInsert_sorted {α : Type} (le : α → α → Bool)
    (htot : ∀ a b, le a b = true ∨ le b a = true)
    (htrans : ∀ a b c, le a b = true → le b c = true → le a c = true)
    (x : α) (l : List α)
    (h : List.Pairwise (fun a b => le a b = true) l) :
    List.Pairwise (fun a b => le a b = true) (isortInsert le x l) := by
  induction l with
  | nil => simp [isortInsert]
  | cons y ys ih =>
    unfold isortInsert
    rcases List.pairwise_cons.mp h with ⟨hy, hys⟩
    by_cases hxy : le x y = true
    · simp only [hxy, if_true]
      refine List.pairwise_cons.mpr ⟨?_, h⟩
      intro z hz
      rcases List.mem_cons.mp hz with rfl | hz'
      · exact hxy
      · exact htrans x y z hxy (hy z hz')
    · simp only [hxy, if_false]
      refine List.pairwise_cons.mpr ⟨?_, ih hys⟩
      intro z hz
      have hz2 : z ∈ x :: ys := (isortInsert_perm le x ys).mem_iff.mp hz
      rcases List.mem_cons.mp hz2 with rfl | hz3
      · rcases htot z y with hh | hh
        · exact absurd hh hxy
        · exact hh
      · exact hy z hz3

theorem isort_sorted {α : Type} (le : α → α → Bool)
    (htot : ∀ a b, le a b = true ∨ le b a = true)
    (htrans : ∀ a b c, le a b = true → le b c = true → le a c = true)
    (l : List α) :
    List.Pairwise (fun a b => le a b = true) (isort le l) := by
  induction l with
  | nil => simp [isort]
  | cons x xs ih =>
    unfold isort
    exact isortInsert_sorted le htot htrans x _ ih

theorem sorted_find?_min {α : Type} (le : α → α → Bool)
    (htot : ∀ a b, le a b = true ∨ le b a = true)
    (l : List α)
    (hs : List.Pairwise (fun a b => le a b = true) l) (p : α → Bool) (x : α)
    (hf : l.find? p = some x) :
    ∀ y ∈ l, p y = true → le x y = true := by
  induction l with
  | nil => cases hf
  | cons a as ih =>
    rcases List.pairwise_cons.mp hs with ⟨ha, has⟩
    by_cases hpa : p a = true
    · have hx : x = a := by
        rw [List.find?_cons_of_pos _ hpa] at hf
        exact (Option.some.inj hf).symm
      subst hx
      intro y hy hpy
      rcases List.mem_cons.mp hy with rfl | hy'
      · rcases htot y y with h | h <;> exact h
      · exact ha y hy'
    · have hf' : as.find? p = some x := by
        rwa [List.find?_cons_of_neg _ hpa] at hf
      intro y hy hpy
      rcases List.mem_cons.mp hy with rfl | hy'
      · exact absurd hpy hpa
      · exact ih has hf' y hy' hpy

/-- C10: after `updateDefaultExtruder` runs on a state with an active
global stack, the default extruder position is the key of the first
enabled extruder in ascending code-point order of the string position
keys (so that position is enabled and no enabled extruder has a smaller
key), or "0" when no extruder is enabled; and the extruder-changed
notification is emitted by that call exactly when the position actually
changed. -/
theorem C10_default_extruder (s : MMState) (g : GlobalStack)
    (hg : s.global = some g) :
    ((∃ p ∈ g.extruders, p.2.isEnabled = true) →
      ∃ p ∈ g.extruders,
        p.1 = (updateDefaultExtruder s).defaultExtruderPosition ∧
        p.2.isEnabled = true ∧
        ∀ q ∈ g.extruders, q.2.isEnabled = true → strLe p.1 q.1 = true)
    ∧ ((∀ p ∈ g.extruders, p.2.isEnabled = false) →
      (updateDefaultExtruder s).defaultExtruderPosition = "0")
    ∧ (((updateDefaultExtruder s).defaultExtruderPosition =
          s.defaultExtruderPosition ∧
        (updateDefaultExtruder s).events = s.events)
       ∨ ((updateDefaultExtruder s).defaultExtruderPosition ≠
          s.defaultExtruderPosition ∧
        (updateDefaultExtruder s).events =
          s.events ++ [MMEvent.extruderChanged])) := by
  obtain ⟨glob, cqg, cqcg, crm, dep, ev, ns, nx⟩ := s
  obtain rfl : glob = some g := hg
  have htotP : ∀ (a b : String × ExtruderStack),
      strLe a.1 b.1 = true ∨ strLe b.1 a.1 = true :=
    fun a b => strLe_total a.1 b.1
  have htransP : ∀ (a b c : String × ExtruderStack),
      strLe a.1 b.1 = true → strLe b.1 c.1 = true → strLe a.1 c.1 = true :=
    fun a b c => strLe_trans a.1 b.1 c.1
  have hperm := isort_perm (fun p q : String × ExtruderStack => strLe p.1 q.1)
    g.extruders
  have hsort := isort_sorted (fun p q : String × ExtruderStack => strLe p.1 q.1)
    htotP htransP g.extruders
  cases hfind : (isort (fun p q : String × ExtruderStack => strLe p.1 q.1)
      g.extruders).find? (fun p => p.2.isEnabled) with
  | some p0 =>
    have hp0mem : p0 ∈ g.extruders :=
      hperm.mem_iff.mp (List.mem_of_find?_eq_some hfind)
    have hp0en : p0.2.isEnabled = true := by
      have h2 := List.find?_some hfind
      simpa using h2
    have hdp : (updateDefaultExtruder
        ⟨some g, cqg, cqcg, crm, dep, ev, ns, nx⟩).defaultExtruderPosition =
        p0.1 := by
      unfold updateDefaultExtruder
      simp only [hfind]
      split_ifs with h
      · rfl
      · exact (not_ne_iff.mp h).symm
    refine ⟨?_, ?_, ?_⟩
    · intro _
      refine ⟨p0, hp0mem, hdp.symm, hp0en, ?_⟩
      intro q hq hqe
      exact sorted_find?_min _ htotP _ hsort _ _ hfind q (hperm.mem_iff.mpr hq)
        hqe
    · intro hall
      have hfalse := hall p0 hp0mem
      rw [hp0en] at hfalse
      cases hfalse
    · unfold updateDefaultExtruder
      simp only [hfind]
      split_ifs with h
      · right
        exact ⟨h, rfl⟩
      · left
        exact ⟨rfl, rfl⟩
  | none =>
    have hnone : ∀ q ∈ g.extruders, ¬ q.2.isEnabled = true := by
      intro q hq
      exact List.find?_eq_none.mp hfind q (hperm.mem_iff.mpr hq)
    have hdp : (updateDefaultExtruder
        ⟨some g, cqg, cqcg, crm, dep, ev, ns, nx⟩).defaultExtruderPosition =
        "0" := by
      unfold updateDefaultExtruder
      simp only [hfind]
      split_ifs with h
      · rfl
      · exact (not_ne_iff.mp h).symm
    refine ⟨?_, ?_, ?_⟩
    · intro hex
      rcases hex with ⟨p, hp, hpe⟩
      exact absurd hpe (hnone p hp)
    · intro _
      exact hdp
    · unfold updateDefaultExtruder
      simp only [hfind]
      split_ifs with h
      · right
        exact ⟨h, rfl⟩
      · left
        exact ⟨rfl, rfl⟩

/-- C10 witness: the characterisation evaluated on the demo two-extruder
machine (both extruders enabled, so the default is position "0" and no
notification fires since it was already "0"). -/
theorem C10_default_extruder_witness :
    demoTwoExtruderState.global = some demoTwoExtruderGlobal ∧
    ((∃ p ∈ demoTwoExtruderGlobal.extruders, p.2.isEnabled = true) →
      ∃ p ∈ demoTwoExtruderGlobal.extruders,
        p.1 = (updateDefaultExtruder
          demoTwoExtruderState).defaultExtruderPosition ∧
        p.2.isEnabled = true ∧
        ∀ q ∈ demoTwoExtruderGlobal.extruders, q.2.isEnabled = true →
          strLe p.1 q.1 = true) ∧
    (updateDefaultExtruder demoTwoExtruderState).events =
      demoTwoExtruderState.events :=
  ⟨rfl,
   (C10_default_extruder demoTwoExtruderState demoTwoExtruderGlobal rfl).1,
   by decide⟩

theorem alookup_aupdate_self {α : Type} (l : List (String × α)) (k : String)
    (f : α → α) : alookup (aupdate l k f) k = (alookup l k).map f := by
  induction l with
  | nil => rfl
  | cons p ps ih =>
    by_cases h : p.1 = k
    · simp [aupdate, alookup_cons, h]
    · simp only [aupdate, List.map_cons, if_neg h]
      rw [alookup_cons, if_neg h, alookup_cons, if_neg h]
      exact ih

theorem alookup_aupdate_other {α : Type} (l : List (String × α)) (k k' : String)
    (f : α → α) (h : k' ≠ k) :
    alookup (aupdate l k f) k' = alookup l k' := by
  induction l with
  | nil => rfl
  | cons p ps ih =>
    by_cases hp : p.1 = k
    · have hpk : p.1 ≠ k' := by rw [hp]; exact fun he => h he.symm
      simp only [aupdate, List.map_cons, if_pos hp]
      rw [alookup_cons, alookup_cons, if_neg hpk]
      simp only [if_neg hpk]
      exact ih
    · simp only [aupdate, List.map_cons, if_neg hp]
      rw [alookup_cons, alookup_cons]
      by_cases hpk : p.1 = k'
      · simp [hpk]
      · simp only [if_neg hpk]
        exact ih

theorem materialAt_setMaterialImpl (pos : String) (node : Option ContainerNode)
    (s : MMState) (g : GlobalStack) (ext : ExtruderStack)
    (hg : s.global = some g) (hk : alookup g.extruders pos = some ext) :
    materialAt (setMaterialImpl pos node s) pos =
      some (match node with
            | some n =>
              (match n.container with
               | some c => c
               | none => empty_material_container)
            | none => empty_material_container) := by
  obtain ⟨glob, cqg, cqcg, crm, dep, ev, ns, nx⟩ := s
  obtain rfl : glob = some g := hg
  unfold setMaterialImpl materialAt
  cases node with
  | none =>
    dsimp only
    split_ifs <;> simp [alookup_aupdate_self, hk]
  | some n =>
    cases hc : n.container with
    | none =>
      dsimp only
      rw [hc]
      split_ifs <;> simp [alookup_aupdate_self, hk, hc]
    | some c =>
      dsimp only
      rw [hc]
      split_ifs <;> simp [alookup_aupdate_self, hk, hc]

/-- C4 (amended): `updateMaterialWithVariant(position)` follows the
source's policy: (1) no catalog candidates installs the empty sentinel;
(2) a candidate matching the current material's base family installs that
candidate's container; (3) otherwise the catalog's default material is
installed when the catalog returns one — but when the catalog returns no
default, the material is left UNCHANGED, not set to the empty sentinel as
the claim stated.  Catalog nodes are assumed to resolve where installed
(clauses 2 and 3 take the resolved container as hypothesis). -/
theorem C4_amended (cat : MaterialCatalog) (s : MMState) (g : GlobalStack)
    (pos : String) (ext : ExtruderStack)
    (hg : s.global = some g) (hext : alookup g.extruders pos = some ext) :
    (cat.getAvailableMaterials g.definitionId
        (if ext.variant.id ≠ empty_variant_container.id then
          some ext.variant.name else none)
        (if g.variant.id ≠ "empty_variant" then some g.variant.name else none)
        ext.compatibleMaterialDiameter = [] →
      materialAt (updateMaterialWithVariant cat (some pos) s) pos =
        some empty_material_container)
    ∧ (∀ b n c, ext.material.base_file = some b →
        alookup (cat.getAvailableMaterials g.definitionId
          (if ext.variant.id ≠ empty_variant_container.id then
            some ext.variant.name else none)
          (if g.variant.id ≠ "empty_variant" then some g.variant.name else none)
          ext.compatibleMaterialDiameter) b = some n →
        n.container = some c →
        materialAt (updateMaterialWithVariant cat (some pos) s) pos = some c)
    ∧ (cat.getAvailableMaterials g.definitionId
        (if ext.variant.id ≠ empty_variant_container.id then
          some ext.variant.name else none)
        (if g.variant.id ≠ "empty_variant" then some g.variant.name else none)
        ext.compatibleMaterialDiameter ≠ [] →
      (ext.material.base_file.bind (fun b =>
        alookup (cat.getAvailableMaterials g.definitionId
          (if ext.variant.id ≠ empty_variant_container.id then
            some ext.variant.name else none)
          (if g.variant.id ≠ "empty_variant" then some g.variant.name else none)
          ext.compatibleMaterialDiameter) b)) = none →
      ((∀ n c, cat.getDefaultMaterial g.definitionId pos
          (if ext.variant.id ≠ empty_variant_container.id then
            some ext.variant.name else none) = some n →
         n.container = some c →
         materialAt (updateMaterialWithVariant cat (some pos) s) pos = some c)
       ∧ (cat.getDefaultMaterial g.definitionId pos
          (if ext.variant.id ≠ empty_variant_container.id then
            some ext.variant.name else none) = none →
         materialAt (updateMaterialWithVariant cat (some pos) s) pos =
           some ext.material))) := by
  obtain ⟨glob, cqg, cqcg, crm, dep, ev, ns, nx⟩ := s
  obtain rfl : glob = some g := hg
  have hone : updateMaterialWithVariant cat (some pos)
      ⟨some g, cqg, cqcg, crm, dep, ev, ns, nx⟩ =
      updateMaterialWithVariantOne cat
        (if g.variant.id ≠ "empty_variant" then some g.variant.name else none)
        pos ⟨some g, cqg, cqcg, crm, dep, ev, ns, nx⟩ := by
    unfold updateMaterialWithVariant
    rfl
  rw [hone]
  refine ⟨?_, ?_, ?_⟩
  · intro hcand
    unfold updateMaterialWithVariantOne
    dsimp only
    rw [hext]
    dsimp only
    simp only [hcand, List.isEmpty_nil, if_true]
    exact materialAt_setMaterialImpl pos none _ g ext rfl hext
  · intro b n c hb hn hc
    unfold updateMaterialWithVariantOne
    dsimp only
    rw [hext]
    dsimp only
    have hcne : ¬ ((cat.getAvailableMaterials g.definitionId
        (if ext.variant.id ≠ empty_variant_container.id then
          some ext.variant.name else none)
        (if g.variant.id ≠ "empty_variant" then some g.variant.name else none)
        ext.compatibleMaterialDiameter).isEmpty = true) := by
      cases hl : cat.getAvailableMaterials g.definitionId
          (if ext.variant.id ≠ empty_variant_container.id then
            some ext.variant.name else none)
          (if g.variant.id ≠ "empty_variant" then some g.variant.name else none)
          ext.compatibleMaterialDiameter with
      | nil => rw [hl] at hn; cases hn
      | cons x xs => simp
    rw [if_neg hcne]
    simp only [hb, Option.some_bind, hn]
    rw [materialAt_setMaterialImpl pos (some n) _ g ext rfl hext]
    simp [hc]
  · intro hcand hbindnone
    have hcne : ¬ ((cat.getAvailableMaterials g.definitionId
        (if ext.variant.id ≠ empty_variant_container.id then
          some ext.variant.name else none)
        (if g.variant.id ≠ "empty_variant" then some g.variant.name else none)
        ext.compatibleMaterialDiameter).isEmpty = true) := by
      cases hl : cat.getAvailableMaterials g.definitionId
          (if ext.variant.id ≠ empty_variant_container.id then
            some ext.variant.name else none)
          (if g.variant.id ≠ "empty_variant" then some g.variant.name else none)
          ext.compatibleMaterialDiameter with
      | nil => exact absurd hl hcand
      | cons x xs => simp
    constructor
    · intro n c hdef hc
      unfold updateMaterialWithVariantOne
      dsimp only
      rw [hext]
      dsimp only
      rw [if_neg hcne, hbindnone]
      dsimp only
      rw [hdef]
      rw [materialAt_setMaterialImpl pos (some n) _ g ext rfl hext]
      simp [hc]
    · intro hdef
      unfold updateMaterialWithVariantOne
      dsimp only
      rw [hext]
      dsimp only
      rw [if_neg hcne, hbindnone]
      dsimp only
      rw [hdef]
      simp [materialAt, hext]

/-- C4 counterexample: with a non-empty candidate set not containing the
current PLA family and a catalog returning no default material, the
extruder's material is left as the old PLA container — not set to the
empty sentinel as the claim's clause (3) stated. -/
theorem C4_counterexample :
    materialAt (updateMaterialWithVariant absOnlyNoDefaultCatalog (some "0")
      demoState) "0" = some demoExtruder.material ∧
    demoExtruder.material ≠ empty_material_container := by decide

/-- C4 witness: the amended policy applied at the demo machine with the
ABS-only, no-default catalog: the no-default leg leaves the material
unchanged. -/
theorem C4_amended_witness :
    alookup demoActiveGlobal.extruders "0" =
      some { demoExtruder with
        quality := { id := "normal_q_e0", quality_type := some "normal" } } ∧
    materialAt (updateMaterialWithVariant absOnlyNoDefaultCatalog (some "0")
      demoState) "0" =
      some { demoExtruder with
        quality :=
          { id := "normal_q_e0",
            quality_type := some "normal" } }.material := by
  refine ⟨by decide, ?_⟩
  have h := (C4_amended absOnlyNoDefaultCatalog demoState demoActiveGlobal "0"
    { demoExtruder with
      quality := { id := "normal_q_e0", quality_type := some "normal" } }
    rfl (by decide)).2.2 (by decide) (by decide)
  exact h.2 (by decide)

theorem setMaterialImpl_global (pos : String) (node : Option ContainerNode)
    (s : MMState) (g : GlobalStack) (hg : s.global = some g) :
    (setMaterialImpl pos node s).global = some { g with
      extruders := aupdate g.extruders pos (fun e => { e with
        material :=
          (match node with
           | some n =>
             (match n.container with
              | some c => c
              | none => empty_material_container)
           | none => empty_material_container) }) } := by
  obtain ⟨glob, cqg, cqcg, crm, dep, ev, ns, nx⟩ := s
  obtain rfl : glob = some g := hg
  unfold setMaterialImpl
  cases node with
  | none =>
    dsimp only
    split_ifs <;> rfl
  | some n =>
    cases hc : n.container with
    | none =>
      dsimp only
      rw [hc]
      split_ifs <;> rfl
    | some c =>
      dsimp only
      rw [hc]
      split_ifs <;> rfl

theorem updateMWV_single (cat : MaterialCatalog) (pos : String) (s : MMState)
    (g : GlobalStack) (hg : s.global = some g) :
    updateMaterialWithVariant cat (some pos) s =
      updateMaterialWithVariantOne cat
        (if g.variant.id ≠ "empty_variant" then some g.variant.name else none)
        pos s := by
  obtain ⟨glob, cqg, cqcg, crm, dep, ev, ns, nx⟩ := s
  obtain rfl : glob = some g := hg
  rfl

theorem updateOne_spec (cat : MaterialCatalog) (bp : Option String)
    (pos : String) (s : MMState) (g : GlobalStack) (ext : ExtruderStack)
    (hg : s.global = some g) (hext : alookup g.extruders pos = some ext) :
    ∃ g', (updateMaterialWithVariantOne cat bp pos s).global = some g' ∧
      g'.definitionId = g.definitionId ∧ g'.variant = g.variant ∧
      alookup g'.extruders pos =
        some { ext with
          material := materialOutcome cat bp
            (if ext.variant.id ≠ empty_variant_container.id then
              some ext.variant.name else none) pos g.definitionId ext } := by
  obtain ⟨glob, cqg, cqcg, crm, dep, ev, ns, nx⟩ := s
  obtain rfl : glob = some g := hg
  unfold updateMaterialWithVariantOne
  dsimp only
  rw [hext]
  dsimp only
  generalize hnz : (if ext.variant.id ≠ empty_variant_container.id then
    some ext.variant.name else none) = nz
  split_ifs with hie
  · refine ⟨_, setMaterialImpl_global pos none _ g rfl, rfl, rfl, ?_⟩
    rw [alookup_aupdate_self, hext]
    unfold materialOutcome
    dsimp only
    rw [if_pos hie]
    rfl
  · cases hbind : ext.material.base_file.bind (fun b =>
        alookup (cat.getAvailableMaterials g.definitionId nz bp
          ext.compatibleMaterialDiameter) b) with
    | some n =>
      refine ⟨_, setMaterialImpl_global pos (some n) _ g rfl, rfl, rfl, ?_⟩
      rw [alookup_aupdate_self, hext]
      unfold materialOutcome
      dsimp only
      rw [if_neg hie, hbind]
      rfl
    | none =>
      cases hdef : cat.getDefaultMaterial g.definitionId pos nz with
      | some n =>
        refine ⟨_, setMaterialImpl_global pos (some n) _ g rfl, rfl, rfl, ?_⟩
        rw [alookup_aupdate_self, hext]
        unfold materialOutcome
        dsimp only
        rw [if_neg hie, hbind, hdef]
        rfl
      | none =>
        refine ⟨g, rfl, rfl, rfl, ?_⟩
        rw [hext]
        unfold materialOutcome
        dsimp only
        rw [if_neg hie, hbind, hdef]

theorem materialOutcome_idem (cat : MaterialCatalog) (bp nz : Option String)
    (pos defId : String) (ext : ExtruderStack)
    (hcoh1 : ∀ b n, alookup (cat.getAvailableMaterials defId nz bp
        ext.compatibleMaterialDiameter) b = some n →
      ∃ c, n.container = some c ∧ c.base_file = some b)
    (hcoh2 : ∀ n c b, cat.getDefaultMaterial defId pos nz = some n →
      n.container = some c → c.base_file = some b →
      alookup (cat.getAvailableMaterials defId nz bp
        ext.compatibleMaterialDiameter) b = none ∨
      alookup (cat.getAvailableMaterials defId nz bp
        ext.compatibleMaterialDiameter) b = some n) :
    materialOutcome cat bp nz pos defId
      { ext with material := materialOutcome cat bp nz pos defId ext } =
    materialOutcome cat bp nz pos defId ext := by
  cases hie : (cat.getAvailableMaterials defId nz bp
      ext.compatibleMaterialDiameter).isEmpty with
  | true =>
    unfold materialOutcome
    dsimp only
    rw [if_pos hie, if_pos hie]
  | false =>
    have hnie : ¬ ((cat.getAvailableMaterials defId nz bp
        ext.compatibleMaterialDiameter).isEmpty = true) := by
      rw [hie]
      simp
    cases hbind : ext.material.base_file.bind (fun b =>
        alookup (cat.getAvailableMaterials defId nz bp
          ext.compatibleMaterialDiameter) b) with
    | some n =>
      obtain ⟨b, hb, hn⟩ := Option.bind_eq_some.mp hbind
      obtain ⟨c, hc, hcb⟩ := hcoh1 b n hn
      have hM : materialOutcome cat bp nz pos defId ext = c := by
        unfold materialOutcome
        dsimp only
        rw [if_neg hnie, hbind]
        dsimp only
        rw [hc]
      rw [hM]
      unfold materialOutcome
      dsimp only
      rw [if_neg hnie, hcb]
      simp only [Option.some_bind]
      rw [hn]
      dsimp only
      rw [hc]
    | none =>
      cases hdef : cat.getDefaultMaterial defId pos nz with
      | none =>
        have hM : materialOutcome cat bp nz pos defId ext = ext.material := by
          unfold materialOutcome
          dsimp only
          rw [if_neg hnie, hbind]
          dsimp only
          rw [hdef]
        rw [hM]
        show materialOutcome cat bp nz pos defId ext = ext.material
        exact hM
      | some n =>
        cases hc : n.container with
        | none =>
          have hM : materialOutcome cat bp nz pos defId ext =
              empty_material_container := by
            unfold materialOutcome
            dsimp only
            rw [if_neg hnie, hbind]
            dsimp only
            rw [hdef]
            dsimp only
            rw [hc]
          rw [hM]
          unfold materialOutcome
          dsimp only
          rw [if_neg hnie]
          show (match (empty_material_container.base_file.bind fun b =>
              alookup (cat.getAvailableMaterials defId nz bp
                ext.compatibleMaterialDiameter) b) with
            | some n =>
              (match n.container with
               | some c => c
               | none => empty_material_container)
            | none =>
              (match cat.getDefaultMaterial defId pos nz with
               | some n =>
                 (match n.container with
                  | some c => c
                  | none => empty_material_container)
               | none => empty_material_container)) = empty_material_container
          rw [show empty_material_container.base_file = none from rfl]
          simp only [Option.none_bind]
          rw [hdef]
          dsimp only
          rw [hc]
        | some c =>
          have hM : materialOutcome cat bp nz pos defId ext = c := by
            unfold materialOutcome
            dsimp only
            rw [if_neg hnie, hbind]
            dsimp only
            rw [hdef]
            dsimp only
            rw [hc]
          rw [hM]
          unfold materialOutcome
          dsimp only
          rw [if_neg hnie]
          cases hcb : c.base_file with
          | none =>
            simp only [Option.none_bind]
            rw [hdef]
            dsimp only
            rw [hc]
          | some b =>
            simp only [Option.some_bind]
            rcases hcoh2 n c b hdef hc hcb with hnone | hsome
            · rw [hnone]
              dsimp only
              rw [hdef]
              dsimp only
              rw [hc]
            · rw [hsome]
              dsimp only
              rw [hc]

/-- C8: running `updateMaterialWithVariant(p)` twice with the catalog
returning the same answers both times yields the same material selection
for p after the second run as after the first.  The two hypotheses state
the coherence the catalog contract guarantees: candidate nodes resolve to
containers carrying their own base-file key, and a default-material node
whose container's base family is among the candidates IS that candidate. -/
theorem C8_roundtrip (cat : MaterialCatalog) (s : MMState) (g : GlobalStack)
    (pos : String) (ext : ExtruderStack)
    (hg : s.global = some g) (hext : alookup g.extruders pos = some ext)
    (hcoh1 : ∀ b n, alookup (cat.getAvailableMaterials g.definitionId
        (if ext.variant.id ≠ empty_variant_container.id then
          some ext.variant.name else none)
        (if g.variant.id ≠ "empty_variant" then some g.variant.name else none)
        ext.compatibleMaterialDiameter) b = some n →
      ∃ c, n.container = some c ∧ c.base_file = some b)
    (hcoh2 : ∀ n c b, cat.getDefaultMaterial g.definitionId pos
        (if ext.variant.id ≠ empty_variant_container.id then
          some ext.variant.name else none) = some n →
      n.container = some c → c.base_file = some b →
      alookup (cat.getAvailableMaterials g.definitionId
        (if ext.variant.id ≠ empty_variant_container.id then
          some ext.variant.name else none)
        (if g.variant.id ≠ "empty_variant" then some g.variant.name else none)
        ext.compatibleMaterialDiameter) b = none ∨
      alookup (cat.getAvailableMaterials g.definitionId
        (if ext.variant.id ≠ empty_variant_container.id then
          some ext.variant.name else none)
        (if g.variant.id ≠ "empty_variant" then some g.variant.name else none)
        ext.compatibleMaterialDiameter) b = some n) :
    materialAt (updateMaterialWithVariant cat (some pos)
      (updateMaterialWithVariant cat (some pos) s)) pos =
    materialAt (updateMaterialWithVariant cat (some pos) s) pos := by
  have h1run := updateMWV_single cat pos s g hg
  obtain ⟨g1, hg1, hdef1, hvar1, hext1⟩ := updateOne_spec cat
    (if g.variant.id ≠ "empty_variant" then some g.variant.name else none)
    pos s g ext hg hext
  obtain ⟨M1, hM1⟩ : ∃ m, materialOutcome cat
      (if g.variant.id ≠ "empty_variant" then some g.variant.name else none)
      (if ext.variant.id ≠ empty_variant_container.id then
        some ext.variant.name else none)
      pos g.definitionId ext = m := ⟨_, rfl⟩
  rw [hM1] at hext1
  have h2run := updateMWV_single cat pos
    (updateMaterialWithVariantOne cat
      (if g.variant.id ≠ "empty_variant" then some g.variant.name else none)
      pos s) g1 hg1
  have hbp1 : (if g1.variant.id ≠ "empty_variant" then some g1.variant.name
      else none) =
      (if g.variant.id ≠ "empty_variant" then some g.variant.name else none) := by
    rw [hvar1]
  obtain ⟨g2, hg2, _, _, hext2⟩ := updateOne_spec cat
    (if g.variant.id ≠ "empty_variant" then some g.variant.name else none)
    pos (updateMaterialWithVariantOne cat
      (if g.variant.id ≠ "empty_variant" then some g.variant.name else none)
      pos s) g1 { ext with material := M1 } hg1 hext1
  have hfix : materialOutcome cat
      (if g.variant.id ≠ "empty_variant" then some g.variant.name else none)
      (if ({ ext with material := M1 } : ExtruderStack).variant.id ≠
        empty_variant_container.id then
        some ({ ext with material := M1 } : ExtruderStack).variant.name
        else none)
      pos g1.definitionId { ext with material := M1 } = M1 := by
    rw [hdef1, ← hM1]
    exact materialOutcome_idem cat
      (if g.variant.id ≠ "empty_variant" then some g.variant.name else none)
      (if ext.variant.id ≠ empty_variant_container.id then
        some ext.variant.name else none)
      pos g.definitionId ext hcoh1 hcoh2
  rw [h1run, h2run, hbp1]
  have hL : materialAt (updateMaterialWithVariantOne cat
      (if g.variant.id ≠ "empty_variant" then some g.variant.name else none)
      pos (updateMaterialWithVariantOne cat
        (if g.variant.id ≠ "empty_variant" then some g.variant.name else none)
        pos s)) pos = some M1 := by
    unfold materialAt
    rw [hg2]
    simp only [Option.some_bind]
    rw [hext2]
    simp only [Option.map_some]
    exact congrArg some hfix
  have hR : materialAt (updateMaterialWithVariantOne cat
      (if g.variant.id ≠ "empty_variant" then some g.variant.name else none)
      pos s) pos = some M1 := by
    unfold materialAt
    rw [hg1]
    simp only [Option.some_bind]
    rw [hext1]
    rfl
  rw [hL, hR]

/-- C8 witness: the round-trip at the demo machine with the ABS-only,
no-default catalog (whose single candidate is coherent and whose default
answer is empty, so both coherence hypotheses hold). -/
theorem C8_roundtrip_witness :
    materialAt (updateMaterialWithVariant absOnlyNoDefaultCatalog (some "0")
      (updateMaterialWithVariant absOnlyNoDefaultCatalog (some "0")
        demoState)) "0" =
    materialAt (updateMaterialWithVariant absOnlyNoDefaultCatalog (some "0")
      demoState) "0" := by
  refine C8_roundtrip absOnlyNoDefaultCatalog demoState demoActiveGlobal "0"
    { demoExtruder with
      quality := { id := "normal_q_e0", quality_type := some "normal" } }
    rfl (by decide) ?_ ?_
  · intro b n h
    simp only [absOnlyNoDefaultCatalog] at h
    rw [alookup_cons] at h
    split_ifs at h with hb
    · obtain rfl : absNode = n := Option.some.inj h
      refine ⟨_, rfl, ?_⟩
      rw [← hb]
    · rw [alookup_nil] at h
      cases h
  · intro n c b hdef
    exact absurd hdef (by simp [absOnlyNoDefaultCatalog])

theorem replayActive_isSome (tr : List RemovalEvent) (a : Option String)
    (ha : a.isSome) : (replayActive a tr).isSome := by
  induction tr generalizing a with
  | nil => exact ha
  | cons e t ih =>
    cases e with
    | activate i => exact ih (some i) rfl
    | removeExtruders m => exact ih a ha
    | removeUserContainer m => exact ih a ha
    | removeStack m => exact ih a ha

theorem find?_machine_of_mem_nodup (l : List Machine) (m : Machine)
    (hm : m ∈ l) (hnd : (l.map (fun x => x.id)).Nodup) :
    l.find? (fun x => x.id = m.id) = some m := by
  induction l with
  | nil => cases hm
  | cons p ps ih =>
    rcases List.mem_cons.mp hm with rfl | hm'
    · rw [List.find?_cons_of_pos]
      simp
    · by_cases hp : p.id = m.id
      · exfalso
        have hin : m.id ∈ ps.map (fun x => x.id) :=
          List.mem_map.mpr ⟨m, hm', rfl⟩
        have hnin := (List.nodup_cons.mp hnd).1
        apply hnin
        show p.id ∈ _
        rw [hp]
        exact hin
      · rw [List.find?_cons_of_neg]
        · exact ih hm' (List.nodup_cons.mp hnd).2
        · simp [hp]

theorem machineFilter_length_lt (l : List Machine) (mid : String) (mm : Machine)
    (hm : mm ∈ l) (hid : mm.id = mid) :
    (l.filter (fun m => m.id ≠ mid)).length < l.length := by
  induction l with
  | nil => cases hm
  | cons a as ih =>
    rcases List.mem_cons.mp hm with rfl | hm'
    · have hpa : (decide (mm.id ≠ mid)) = false := by simp [hid]
      simp only [List.filter_cons, hpa, if_false, List.length_cons]
      exact Nat.lt_succ_of_le (List.length_filter_le _ as)
    · by_cases hpa : a.id ≠ mid
      · have hpa' : (decide (a.id ≠ mid)) = true := by simp [hpa]
        simp only [List.filter_cons, hpa', if_true, List.length_cons]
        exact Nat.succ_lt_succ (ih hm')
      · have hpa' : (decide (a.id ≠ mid)) = false := by simp [hpa]
        simp only [List.filter_cons, hpa', if_false, List.length_cons]
        exact Nat.lt_succ_of_lt (ih hm')

theorem setActiveMachineR_registry (i : String) (s : RegistryState) :
    (setActiveMachineR i s).1.registry = s.registry := by
  unfold setActiveMachineR
  cases s.registry.find? (fun m => m.id = i) with
  | none => rfl
  | some m =>
    dsimp only
    split_ifs <;> rfl

theorem removeMachineStep1_registry (mid : String) (s : RegistryState) :
    (removeMachineStep1 mid s).1.registry = s.registry := by
  unfold removeMachineStep1
  split_ifs
  · cases (s.registry.filter (fun m => m.id ≠ mid)).head? with
    | none => rfl
    | some other => exact setActiveMachineR_registry other.id s
  · rfl

theorem mem_of_head_some {α : Type} {l : List α} {a : α}
    (h : l.head? = some a) : a ∈ l := by
  cases l with
  | nil => cases h
  | cons x xs =>
    have hx : x = a := by
      rw [List.head?_cons] at h
      exact Option.some.inj h
    rw [← hx]
    exact List.mem_cons_self x xs

theorem removeMachineGo_isSome (fuel : Nat) (mid : String) (s : RegistryState)
    (hmem : ∃ m ∈ s.registry, m.id = mid)
    (hfuel : s.registry.length ≤ fuel) :
    (removeMachineGo fuel mid s).isSome := by
  induction fuel generalizing mid s with
  | zero =>
    obtain ⟨m, hm, _⟩ := hmem
    have hnil : s.registry = [] := List.length_eq_zero.mp (Nat.le_zero.mp hfuel)
    rw [hnil] at hm
    cases hm
  | succ fuel ih =>
    rw [removeMachineGo]
    cases hstep : removeMachineStep1 mid s with
    | mk t ev =>
      have hreg : t.registry = s.registry := by
        have h := removeMachineStep1_registry mid s
        rw [hstep] at h
        exact h
      dsimp only
      rw [hreg]
      obtain ⟨m0, hm0, hm0id⟩ := hmem
      have hfind : (s.registry.find? (fun m => m.id = mid)).isSome := by
        rw [List.find?_isSome]
        exact ⟨m0, hm0, by simp [hm0id]⟩
      obtain ⟨metadata, hmd⟩ := Option.isSome_iff_exists.mp hfind
      rw [hmd]
      dsimp only
      cases hgid : metadata.group_id with
      | none => rfl
      | some gid =>
        dsimp only
        cases hhid : (((s.registry.filter (fun m => m.id ≠ mid)).filter
            (fun m => m.group_id = some gid))).head? with
        | none => rfl
        | some hidden =>
          dsimp only
          have hhmem : hidden ∈ s.registry.filter (fun m => m.id ≠ mid) :=
            List.mem_of_mem_filter (mem_of_head_some hhid)
          have hlt : (s.registry.filter (fun m => m.id ≠ mid)).length < s.registry.length := by
            have hmid : m0.id = mid := hm0id
            exact machineFilter_length_lt s.registry mid m0 hm0 hmid
          have hrec := ih hidden.id
            { t with registry := s.registry.filter (fun m => m.id ≠ mid) }
            ⟨hidden, hhmem, rfl⟩ (by dsimp only; omega)
          obtain ⟨r, hr⟩ := Option.isSome_iff_exists.mp hrec
          rw [hr]
          rfl

/-- C6: removing the currently active machine while another machine exists
in the registry first activates that other machine — the activation is the
head of the removal trace, strictly before the extruder-stack, user
container and stack removals of the removed machine — and no prefix of the
trace replays to an empty active-machine slot.  Hypotheses: the removed id
is active and registered, registry ids are unique, and the first other
machine passes the validation `setActiveMachine` performs. -/
theorem C6_active_removal (s : RegistryState) (mid : String) (other : Machine)
    (hactive : s.active = some mid)
    (hnd : (s.registry.map (fun m => m.id)).Nodup)
    (hmem : ∃ m ∈ s.registry, m.id = mid)
    (hother : (s.registry.filter (fun m => m.id ≠ mid)).head? = some other)
    (hvalid : other.valid = true) :
    ∃ s' tr, removeMachine mid s = some (s', tr) ∧
      other.id ≠ mid ∧
      tr.head? = some (RemovalEvent.activate other.id) ∧
      RemovalEvent.removeStack mid ∈ tr ∧
      ∀ pre, pre <+: tr → (replayActive s.active pre).isSome := by
  have hotherF : other ∈ s.registry.filter (fun m => m.id ≠ mid) :=
    mem_of_head_some hother
  have hotherR : other ∈ s.registry := List.mem_of_mem_filter hotherF
  have hotherNe : other.id ≠ mid := by
    have h := List.of_mem_filter hotherF
    simpa using h
  have hstep1 : removeMachineStep1 mid s =
      ({ s with active := some other.id }, [RemovalEvent.activate other.id]) := by
    unfold removeMachineStep1
    rw [if_pos hactive, hother]
    unfold setActiveMachineR
    dsimp only
    rw [find?_machine_of_mem_nodup s.registry other hotherR hnd]
    dsimp only
    rw [if_pos hvalid]
  have hreplay : ∀ pre : List RemovalEvent,
      pre <+: [RemovalEvent.activate other.id] →
      (replayActive s.active pre).isSome := by
    intro pre _
    rw [hactive]
    exact replayActive_isSome pre (some mid) rfl
  unfold removeMachine
  rw [removeMachineGo]
  rw [hstep1]
  dsimp only
  obtain ⟨m0, hm0, hm0id⟩ := hmem
  have hfind : (s.registry.find? (fun m => m.id = mid)).isSome := by
    rw [List.find?_isSome]
    exact ⟨m0, hm0, by simp [hm0id]⟩
  obtain ⟨metadata, hmd⟩ := Option.isSome_iff_exists.mp hfind
  rw [hmd]
  dsimp only
  cases hgid : metadata.group_id with
  | none =>
    refine ⟨_, _, rfl, hotherNe, rfl, ?_, ?_⟩
    · simp
    · intro pre hpre
      rw [hactive]
      exact replayActive_isSome pre (some mid) rfl
  | some gid =>
    dsimp only
    cases hhid : (((s.registry.filter (fun m => m.id ≠ mid)).filter
        (fun m => m.group_id = some gid))).head? with
    | none =>
      refine ⟨_, _, rfl, hotherNe, rfl, ?_, ?_⟩
      · simp
      · intro pre hpre
        rw [hactive]
        exact replayActive_isSome pre (some mid) rfl
    | some hidden =>
      dsimp only
      have hhmem : hidden ∈ s.registry.filter (fun m => m.id ≠ mid) :=
        List.mem_of_mem_filter (mem_of_head_some hhid)
      have hrec := removeMachineGo_isSome s.registry.length hidden.id
        { s with active := some other.id,
                 registry := s.registry.filter (fun m => m.id ≠ mid) }
        ⟨hidden, hhmem, rfl⟩
        (by dsimp only; exact Nat.le_of_lt (machineFilter_length_lt s.registry mid m0 hm0 hm0id))
      obtain ⟨r, hr⟩ := Option.isSome_iff_exists.mp hrec
      rw [hr]
      dsimp only
      refine ⟨_, _, rfl, hotherNe, rfl, ?_, ?_⟩
      · simp
      · intro pre hpre
        rw [hactive]
        exact replayActive_isSome pre (some mid) rfl

/-- C6 witness: removing the active machine m1 from a registry holding m1
and m2 activates m2 first and never leaves the active slot empty. -/
theorem C6_active_removal_witness :
    ∃ s' tr, removeMachine "m1" demoRegistry = some (s', tr) ∧
      ("m2" : String) ≠ "m1" ∧
      tr.head? = some (RemovalEvent.activate "m2") ∧
      RemovalEvent.removeStack "m1" ∈ tr ∧
      ∀ pre, pre <+: tr → (replayActive demoRegistry.active pre).isSome :=
  C6_active_removal demoRegistry "m1" { id := "m2" } rfl (by decide)
    ⟨{ id := "m1" }, by decide, rfl⟩ (by decide) rfl

theorem pyDedup_eq_self (l : List Nat) (seen : List Nat) (hnd : l.Nodup)
    (hdisj : ∀ x ∈ l, x ∉ seen) : pyDedup l seen = l := by
  induction l generalizing seen with
  | nil => rfl
  | cons x xs ih =>
    unfold pyDedup
    rw [if_neg (hdisj x (List.mem_cons_self x xs))]
    congr 1
    refine ih (x :: seen) (List.nodup_cons.mp hnd).2 ?_
    intro y hy hmem
    rcases List.mem_cons.mp hmem with h | h
    · exact (List.nodup_cons.mp hnd).1 (h ▸ hy)
    · exact hdisj y (List.mem_cons_of_mem x hy) h

theorem any_congr_mem {α : Type} (l : List α) (p q : α → Bool)
    (h : ∀ x ∈ l, p x = q x) : l.any p = l.any q := by
  induction l with
  | nil => rfl
  | cons a as ih =>
    simp only [List.any_cons]
    rw [h a (List.mem_cons_self a as), ih (fun x hx => h x (List.mem_cons_of_mem a hx))]

theorem alookup_aupdate_map_proj {α β : Type} (l : List (String × α))
    (p k : String) (f : α → α) (proj : α → β)
    (hf : ∀ a, proj (f a) = proj a) :
    (alookup (aupdate l p f) k).map proj = (alookup l k).map proj := by
  by_cases h : k = p
  · subst h
    rw [alookup_aupdate_self]
    cases alookup l k with
    | none => rfl
    | some a => simp [hf]
  · rw [alookup_aupdate_other l p k f h]

theorem alookup_map_entry_proj {α β : Type} (l : List (String × α)) (k : String)
    (f : α → α) (proj : α → β) (hf : ∀ a, proj (f a) = proj a) :
    (alookup (l.map (fun p => (p.1, f p.2))) k).map proj =
      (alookup l k).map proj := by
  induction l with
  | nil => rfl
  | cons p ps ih =>
    rw [List.map_cons, alookup_cons, alookup_cons]
    by_cases h : p.1 = k
    · simp [h, hf]
    · rw [if_neg h, if_neg h]
      exact ih

theorem enabledProj_applyQualityNodes (nodes : List (String × ContainerNode))
    (eqc : Bool) (exts : List (String × ExtruderStack)) (k : String) :
    (alookup (applyQualityNodes nodes eqc exts) k).map (fun e => e.isEnabled) =
      (alookup exts k).map (fun e => e.isEnabled) := by
  induction exts with
  | nil => rfl
  | cons p ps ih =>
    unfold applyQualityNodes
    rw [List.map_cons]
    unfold applyQualityNodes at ih
    cases hn : alookup nodes.reverse p.1 with
    | none =>
      rw [alookup_cons, alookup_cons]
      by_cases h : p.1 = k
      · simp [h]
      · rw [if_neg h, if_neg h]
        exact ih
    | some node =>
      rw [alookup_cons, alookup_cons]
      by_cases h : p.1 = k
      · simp [h]
      · rw [if_neg h, if_neg h]
        exact ih

theorem enabledAt_emit (e : MMEvent) (s : MMState) (k : String) :
    enabledAt (emit e s) k = enabledAt s k := rfl

theorem enabledAt_setVariantNodeImpl (p : String) (n : ContainerNode)
    (s : MMState) (k : String) :
    enabledAt (setVariantNodeImpl p n s) k = enabledAt s k := by
  obtain ⟨glob, cqg, cqcg, crm, dep, ev, ns, nx⟩ := s
  unfold enabledAt setVariantNodeImpl emit
  cases glob with
  | none => rfl
  | some g =>
    cases n.container with
    | none => rfl
    | some c =>
      simp only [Option.some_bind]
      exact alookup_aupdate_map_proj g.extruders p k _ _ (fun a => rfl)

theorem enabledAt_assignExtruderVariant (p : String) (c : InstanceContainer)
    (s : MMState) (k : String) :
    enabledAt (assignExtruderVariant p c s) k = enabledAt s k := by
  obtain ⟨glob, cqg, cqcg, crm, dep, ev, ns, nx⟩ := s
  unfold enabledAt assignExtruderVariant
  cases glob with
  | none => rfl
  | some g =>
    simp only [Option.some_bind]
    exact alookup_aupdate_map_proj g.extruders p k _ _ (fun a => rfl)

theorem enabledAt_assignExtruderMaterial (p : String) (c : InstanceContainer)
    (s : MMState) (k : String) :
    enabledAt (assignExtruderMaterial p c s) k = enabledAt s k := by
  obtain ⟨glob, cqg, cqcg, crm, dep, ev, ns, nx⟩ := s
  unfold enabledAt assignExtruderMaterial
  cases glob with
  | none => rfl
  | some g =>
    simp only [Option.some_bind]
    exact alookup_aupdate_map_proj g.extruders p k _ _ (fun a => rfl)

theorem enabledAt_setMaterialImpl (p : String) (n : Option ContainerNode)
    (s : MMState) (k : String) :
    enabledAt (setMaterialImpl p n s) k = enabledAt s k := by
  obtain ⟨glob, cqg, cqcg, crm, dep, ev, ns, nx⟩ := s
  unfold enabledAt setMaterialImpl
  cases glob with
  | none => rfl
  | some g =>
    dsimp only
    split_ifs <;>
      (simp only [Option.some_bind];
       exact alookup_aupdate_map_proj g.extruders p k _ _ (fun a => rfl))

theorem enabledAt_setGlobalVariantImpl (n : ContainerNode) (s : MMState)
    (k : String) :
    enabledAt (setGlobalVariantImpl n s) k = enabledAt s k := by
  obtain ⟨glob, cqg, cqcg, crm, dep, ev, ns, nx⟩ := s
  unfold enabledAt setGlobalVariantImpl
  cases glob with
  | none => rfl
  | some g => rfl

theorem enabledAt_assignGlobalVariant (c : InstanceContainer) (s : MMState)
    (k : String) :
    enabledAt (assignGlobalVariant c s) k = enabledAt s k := by
  obtain ⟨glob, cqg, cqcg, crm, dep, ev, ns, nx⟩ := s
  unfold enabledAt assignGlobalVariant
  cases glob with
  | none => rfl
  | some g => rfl

theorem enabledAt_assignExtruderEnabled_self (p : String) (b : Bool)
    (s : MMState) (h : (enabledAt s p).isSome) :
    enabledAt (assignExtruderEnabled p b s) p = some b := by
  obtain ⟨glob, cqg, cqcg, crm, dep, ev, ns, nx⟩ := s
  unfold enabledAt assignExtruderEnabled
  unfold enabledAt at h
  cases glob with
  | none => simp at h
  | some g =>
    simp only [Option.some_bind] at h ⊢
    rw [alookup_aupdate_self]
    cases he : alookup g.extruders p with
    | none => rw [he] at h; simp at h
    | some e => simp

theorem enabledAt_assignExtruderEnabled_other (p k : String) (b : Bool)
    (s : MMState) (hk : k ≠ p) :
    enabledAt (assignExtruderEnabled p b s) k = enabledAt s k := by
  obtain ⟨glob, cqg, cqcg, crm, dep, ev, ns, nx⟩ := s
  unfold enabledAt assignExtruderEnabled
  cases glob with
  | none => rfl
  | some g =>
    simp only [Option.some_bind]
    rw [alookup_aupdate_other g.extruders p k _ hk]

theorem enabledAt_setEmptyQuality (s : MMState) (k : String) :
    enabledAt (setEmptyQuality s) k = enabledAt s k := by
  obtain ⟨glob, cqg, cqcg, crm, dep, ev, ns, nx⟩ := s
  unfold enabledAt setEmptyQuality
  cases glob with
  | none => rfl
  | some g =>
    simp only [Option.some_bind]
    exact alookup_map_entry_proj g.extruders k
      (fun e => { e with quality := empty_quality_container, qualityChanges := empty_quality_changes_container })
      (fun e => e.isEnabled) (fun a => rfl)

theorem enabledAt_setQualityGroupImpl (qgo : Option QualityGroup) (eqc : Bool)
    (s : MMState) (k : String) :
    enabledAt (setQualityGroupImpl qgo eqc s) k = enabledAt s k := by
  obtain ⟨glob, cqg, cqcg, crm, dep, ev, ns, nx⟩ := s
  unfold setQualityGroupImpl
  cases glob with
  | none => rfl
  | some g =>
    cases qgo with
    | none => exact enabledAt_setEmptyQuality _ k
    | some qg =>
      dsimp only
      cases qualityGroupGlobalContainer qg with
      | none => rfl
      | some gcont =>
        dsimp only
        split_ifs <;>
          first
            | rfl
            | (unfold enabledAt
               simp only [Option.some_bind]
               exact enabledProj_applyQualityNodes qg.nodes_for_extruders eqc g.extruders k)

theorem enabledAt_updateQualityWithMaterial
    (qgs : List (String × QualityGroup)) (s : MMState) (k : String) :
    enabledAt (updateQualityWithMaterial qgs s) k = enabledAt s k := by
  obtain ⟨glob, cqg, cqcg, crm, dep, ev, ns, nx⟩ := s
  unfold updateQualityWithMaterial
  cases glob with
  | none => rfl
  | some g =>
    dsimp only
    split_ifs <;> (repeat' split) <;>
      first
        | rfl
        | exact enabledAt_setEmptyQuality _ k
        | exact enabledAt_setQualityGroupImpl _ _ _ k

theorem enabledAt_updateDefaultExtruder (s : MMState) (k : String) :
    enabledAt (updateDefaultExtruder s) k = enabledAt s k := by
  obtain ⟨glob, cqg, cqcg, crm, dep, ev, ns, nx⟩ := s
  unfold updateDefaultExtruder
  cases glob with
  | none => rfl
  | some g =>
    dsimp only
    split_ifs <;> rfl

theorem enabledAt_updateNumberExtrudersEnabled (s : MMState) (k : String) :
    enabledAt (updateNumberExtrudersEnabled s) k = enabledAt s k := by
  obtain ⟨glob, cqg, cqcg, crm, dep, ev, ns, nx⟩ := s
  unfold updateNumberExtrudersEnabled
  cases glob with
  | none => rfl
  | some g =>
    dsimp only
    split_ifs <;> rfl

theorem enabledAt_updateMaterialWithVariantOne (cat : MaterialCatalog)
    (bp : Option String) (p : String) (s : MMState) (k : String) :
    enabledAt (updateMaterialWithVariantOne cat bp p s) k = enabledAt s k := by
  obtain ⟨glob, cqg, cqcg, crm, dep, ev, ns, nx⟩ := s
  unfold updateMaterialWithVariantOne
  cases glob with
  | none => rfl
  | some g =>
    dsimp only
    cases alookup g.extruders p with
    | none => rfl
    | some ext =>
      dsimp only
      split_ifs <;> (repeat' split) <;>
        first
          | rfl
          | exact enabledAt_setMaterialImpl _ _ _ k

theorem enabledAt_updateMaterialWithVariant_pos (cat : MaterialCatalog)
    (p : String) (s : MMState) (k : String) :
    enabledAt (updateMaterialWithVariant cat (some p) s) k = enabledAt s k := by
  obtain ⟨glob, cqg, cqcg, crm, dep, ev, ns, nx⟩ := s
  unfold updateMaterialWithVariant
  cases glob with
  | none => rfl
  | some g =>
    dsimp only [List.foldl_cons, List.foldl_nil]
    exact enabledAt_updateMaterialWithVariantOne cat _ p _ k

theorem noticeShown_emit (e : MMEvent) (s : MMState) :
    (emit e s).noticeShown = s.noticeShown := rfl

theorem noticeShown_setVariantNodeImpl (p : String) (n : ContainerNode)
    (s : MMState) :
    (setVariantNodeImpl p n s).noticeShown = s.noticeShown := by
  obtain ⟨glob, cqg, cqcg, crm, dep, ev, ns, nx⟩ := s
  unfold setVariantNodeImpl emit
  cases glob with
  | none => rfl
  | some g => cases n.container <;> rfl

theorem noticeShown_assignExtruderVariant (p : String) (c : InstanceContainer)
    (s : MMState) :
    (assignExtruderVariant p c s).noticeShown = s.noticeShown := by
  obtain ⟨glob, cqg, cqcg, crm, dep, ev, ns, nx⟩ := s
  unfold assignExtruderVariant
  cases glob <;> rfl

theorem noticeShown_assignExtruderMaterial (p : String) (c : InstanceContainer)
    (s : MMState) :
    (assignExtruderMaterial p c s).noticeShown = s.noticeShown := by
  obtain ⟨glob, cqg, cqcg, crm, dep, ev, ns, nx⟩ := s
  unfold assignExtruderMaterial
  cases glob <;> rfl

theorem noticeShown_assignExtruderEnabled (p : String) (b : Bool)
    (s : MMState) :
    (assignExtruderEnabled p b s).noticeShown = s.noticeShown := by
  obtain ⟨glob, cqg, cqcg, crm, dep, ev, ns, nx⟩ := s
  unfold assignExtruderEnabled
  cases glob <;> rfl

theorem noticeShown_setMaterialImpl (p : String) (n : Option ContainerNode)
    (s : MMState) :
    (setMaterialImpl p n s).noticeShown = s.noticeShown := by
  obtain ⟨glob, cqg, cqcg, crm, dep, ev, ns, nx⟩ := s
  unfold setMaterialImpl
  cases glob with
  | none => rfl
  | some g =>
    dsimp only
    split_ifs <;> rfl

theorem noticeShown_setGlobalVariantImpl (n : ContainerNode) (s : MMState) :
    (setGlobalVariantImpl n s).noticeShown = s.noticeShown := by
  obtain ⟨glob, cqg, cqcg, crm, dep, ev, ns, nx⟩ := s
  unfold setGlobalVariantImpl
  cases glob <;> rfl

theorem noticeShown_assignGlobalVariant (c : InstanceContainer) (s : MMState) :
    (assignGlobalVariant c s).noticeShown = s.noticeShown := by
  obtain ⟨glob, cqg, cqcg, crm, dep, ev, ns, nx⟩ := s
  unfold assignGlobalVariant
  cases glob <;> rfl

theorem noticeShown_setEmptyQuality (s : MMState) :
    (setEmptyQuality s).noticeShown = s.noticeShown := by
  obtain ⟨glob, cqg, cqcg, crm, dep, ev, ns, nx⟩ := s
  unfold setEmptyQuality
  cases glob <;> rfl

theorem noticeShown_setQualityGroupImpl (qgo : Option QualityGroup) (eqc : Bool)
    (s : MMState) :
    (setQualityGroupImpl qgo eqc s).noticeShown = s.noticeShown := by
  obtain ⟨glob, cqg, cqcg, crm, dep, ev, ns, nx⟩ := s
  unfold setQualityGroupImpl
  cases glob with
  | none => rfl
  | some g =>
    cases qgo with
    | none => exact noticeShown_setEmptyQuality _
    | some qg =>
      dsimp only
      cases qualityGroupGlobalContainer qg with
      | none => rfl
      | some gcont =>
        dsimp only
        split_ifs <;> rfl

theorem noticeShown_updateQualityWithMaterial
    (qgs : List (String × QualityGroup)) (s : MMState) :
    (updateQualityWithMaterial qgs s).noticeShown = s.noticeShown := by
  obtain ⟨glob, cqg, cqcg, crm, dep, ev, ns, nx⟩ := s
  unfold updateQualityWithMaterial
  cases glob with
  | none => rfl
  | some g =>
    dsimp only
    split_ifs <;> (repeat' split) <;>
      first
        | rfl
        | exact noticeShown_setEmptyQuality _
        | exact noticeShown_setQualityGroupImpl _ _ _

theorem noticeShown_updateDefaultExtruder (s : MMState) :
    (updateDefaultExtruder s).noticeShown = s.noticeShown := by
  obtain ⟨glob, cqg, cqcg, crm, dep, ev, ns, nx⟩ := s
  unfold updateDefaultExtruder
  cases glob with
  | none => rfl
  | some g =>
    dsimp only
    split_ifs <;> rfl

theorem noticeShown_updateNumberExtrudersEnabled (s : MMState) :
    (updateNumberExtrudersEnabled s).noticeShown = s.noticeShown := by
  obtain ⟨glob, cqg, cqcg, crm, dep, ev, ns, nx⟩ := s
  unfold updateNumberExtrudersEnabled
  cases glob with
  | none => rfl
  | some g =>
    dsimp only
    split_ifs <;> rfl

theorem noticeShown_updateMaterialWithVariantOne (cat : MaterialCatalog)
    (bp : Option String) (p : String) (s : MMState) :
    (updateMaterialWithVariantOne cat bp p s).noticeShown = s.noticeShown := by
  obtain ⟨glob, cqg, cqcg, crm, dep, ev, ns, nx⟩ := s
  unfold updateMaterialWithVariantOne
  cases glob with
  | none => rfl
  | some g =>
    dsimp only
    cases alookup g.extruders p with
    | none => rfl
    | some ext =>
      dsimp only
      split_ifs <;> (repeat' split) <;>
        first
          | rfl
          | exact noticeShown_setMaterialImpl _ _ _

theorem noticeShown_updateMaterialWithVariant_pos (cat : MaterialCatalog)
    (p : String) (s : MMState) :
    (updateMaterialWithVariant cat (some p) s).noticeShown = s.noticeShown := by
  obtain ⟨glob, cqg, cqcg, crm, dep, ev, ns, nx⟩ := s
  unfold updateMaterialWithVariant
  cases glob with
  | none => rfl
  | some g =>
    dsimp only [List.foldl_cons, List.foldl_nil]
    exact noticeShown_updateMaterialWithVariantOne cat _ p _

theorem remoteStep_noticeShown (mcat : MaterialCatalog) (vcat : VariantCatalog)
    (defId : String) (bp : Option String) (td : List Nat)
    (acc : MMState × Bool × List Nat) (ec : ExtruderConfiguration) :
    (applyRemoteExtruderStep mcat vcat defId bp td acc ec).1.noticeShown =
      acc.1.noticeShown := by
  unfold applyRemoteExtruderStep
  split_ifs <;> dsimp only <;>
    first
      | exact noticeShown_assignExtruderEnabled _ _ _
      | (rw [noticeShown_updateMaterialWithVariant_pos,
           noticeShown_assignExtruderEnabled]
         (repeat' split) <;>
           simp only [noticeShown_setMaterialImpl, noticeShown_assignExtruderMaterial,
             noticeShown_setVariantNodeImpl, noticeShown_assignExtruderVariant])

theorem remoteStep_msg (mcat : MaterialCatalog) (vcat : VariantCatalog)
    (defId : String) (bp : Option String) (td : List Nat)
    (acc : MMState × Bool × List Nat) (ec : ExtruderConfiguration) :
    (applyRemoteExtruderStep mcat vcat defId bp td acc ec).2.1 =
      (acc.2.1 || decide (ec.position ∈ td)) := by
  unfold applyRemoteExtruderStep
  split_ifs with h <;> dsimp only <;> simp [h]

theorem remoteStep_enabledAt_other (mcat : MaterialCatalog)
    (vcat : VariantCatalog) (defId : String) (bp : Option String)
    (td : List Nat) (acc : MMState × Bool × List Nat)
    (ec : ExtruderConfiguration) (k : String)
    (hk : k ≠ toString ec.position) :
    enabledAt (applyRemoteExtruderStep mcat vcat defId bp td acc ec).1 k =
      enabledAt acc.1 k := by
  unfold applyRemoteExtruderStep
  split_ifs <;> dsimp only <;>
    first
      | exact enabledAt_assignExtruderEnabled_other _ _ _ _ hk
      | (rw [enabledAt_updateMaterialWithVariant_pos,
           enabledAt_assignExtruderEnabled_other _ _ _ _ hk]
         (repeat' split) <;>
           simp only [enabledAt_setMaterialImpl, enabledAt_assignExtruderMaterial,
             enabledAt_setVariantNodeImpl, enabledAt_assignExtruderVariant])

theorem remoteStep_enabledAt_self (mcat : MaterialCatalog)
    (vcat : VariantCatalog) (defId : String) (bp : Option String)
    (td : List Nat) (acc : MMState × Bool × List Nat)
    (ec : ExtruderConfiguration)
    (h : (enabledAt acc.1 (toString ec.position)).isSome) :
    enabledAt (applyRemoteExtruderStep mcat vcat defId bp td acc ec).1
        (toString ec.position) =
      some (decide (ec.position ∉ td)) := by
  unfold applyRemoteExtruderStep
  split_ifs with hd <;> dsimp only <;>
    first
      | (rw [enabledAt_assignExtruderEnabled_self _ _ _ h]
         simp [hd])
      | (rw [enabledAt_updateMaterialWithVariant_pos]
         rw [enabledAt_assignExtruderEnabled_self]
         · simp [hd]
         · (repeat' split) <;>
             simp only [enabledAt_setMaterialImpl, enabledAt_assignExtruderMaterial,
               enabledAt_setVariantNodeImpl, enabledAt_assignExtruderVariant] <;>
             exact h)

theorem remoteStep_enabledAt_isSome (mcat : MaterialCatalog)
    (vcat : VariantCatalog) (defId : String) (bp : Option String)
    (td : List Nat) (acc : MMState × Bool × List Nat)
    (ec : ExtruderConfiguration) (k : String)
    (h : (enabledAt acc.1 k).isSome) :
    (enabledAt (applyRemoteExtruderStep mcat vcat defId bp td acc ec).1
      k).isSome := by
  by_cases hk : k = toString ec.position
  · subst hk
    rw [remoteStep_enabledAt_self mcat vcat defId bp td acc ec h]
    rfl
  · rw [remoteStep_enabledAt_other mcat vcat defId bp td acc ec k hk]
    exact h

theorem remoteFold_noticeShown (mcat : MaterialCatalog) (vcat : VariantCatalog)
    (defId : String) (bp : Option String) (td : List Nat)
    (confs : List ExtruderConfiguration) (acc : MMState × Bool × List Nat) :
    (confs.foldl (applyRemoteExtruderStep mcat vcat defId bp td) acc).1.noticeShown =
      acc.1.noticeShown := by
  induction confs generalizing acc with
  | nil => rfl
  | cons c cs ih =>
    rw [List.foldl_cons, ih]
    exact remoteStep_noticeShown mcat vcat defId bp td acc c

theorem remoteFold_msg (mcat : MaterialCatalog) (vcat : VariantCatalog)
    (defId : String) (bp : Option String) (td : List Nat)
    (confs : List ExtruderConfiguration) (acc : MMState × Bool × List Nat) :
    (confs.foldl (applyRemoteExtruderStep mcat vcat defId bp td) acc).2.1 =
      (acc.2.1 || confs.any (fun e => decide (e.position ∈ td))) := by
  induction confs generalizing acc with
  | nil => simp
  | cons c cs ih =>
    rw [List.foldl_cons, ih, remoteStep_msg]
    simp [List.any_cons, Bool.or_assoc]

theorem remoteFold_enabledAt_frame (mcat : MaterialCatalog)
    (vcat : VariantCatalog) (defId : String) (bp : Option String)
    (td : List Nat) (confs : List ExtruderConfiguration)
    (acc : MMState × Bool × List Nat) (k : String)
    (hk : ∀ e ∈ confs, toString e.position ≠ k) :
    enabledAt (confs.foldl (applyRemoteExtruderStep mcat vcat defId bp td) acc).1 k =
      enabledAt acc.1 k := by
  induction confs generalizing acc with
  | nil => rfl
  | cons c cs ih =>
    rw [List.foldl_cons]
    rw [ih (applyRemoteExtruderStep mcat vcat defId bp td acc c)
      (fun e he => hk e (List.mem_cons_of_mem c he))]
    exact remoteStep_enabledAt_other mcat vcat defId bp td acc c k
      (Ne.symm (hk c (List.mem_cons_self c cs)))

theorem remoteFold_enabledAt_self (mcat : MaterialCatalog)
    (vcat : VariantCatalog) (defId : String) (bp : Option String)
    (td : List Nat) (confs : List ExtruderConfiguration)
    (acc : MMState × Bool × List Nat) (e : ExtruderConfiguration)
    (he : e ∈ confs)
    (hnd : (confs.map (fun c => toString c.position)).Nodup)
    (h : (enabledAt acc.1 (toString e.position)).isSome) :
    enabledAt (confs.foldl (applyRemoteExtruderStep mcat vcat defId bp td) acc).1
        (toString e.position) =
      some (decide (e.position ∉ td)) := by
  induction confs generalizing acc with
  | nil => cases he
  | cons c cs ih =>
    rw [List.foldl_cons]
    rcases List.mem_cons.mp he with heq | hmem
    · subst heq
      have hk : ∀ e' ∈ cs, toString e'.position ≠ toString e.position := by
        intro e' he' heqs
        exact (List.nodup_cons.mp hnd).1
          (List.mem_map.mpr ⟨e', he', heqs⟩)
      rw [remoteFold_enabledAt_frame mcat vcat defId bp td cs
        (applyRemoteExtruderStep mcat vcat defId bp td acc e)
        (toString e.position) hk]
      exact remoteStep_enabledAt_self mcat vcat defId bp td acc e h
    · exact ih (applyRemoteExtruderStep mcat vcat defId bp td acc c) hmem
        (List.nodup_cons.mp hnd).2
        (remoteStep_enabledAt_isSome mcat vcat defId bp td acc c
          (toString e.position) h)

theorem enabledAt_remoteBuildplateStep (vcat : VariantCatalog) (defId : String)
    (bpc : Option String) (s : MMState) (k : String) :
    enabledAt (remoteBuildplateStep vcat defId bpc s) k = enabledAt s k := by
  unfold remoteBuildplateStep
  (repeat' split) <;>
    first
      | exact enabledAt_setGlobalVariantImpl _ _ k
      | exact enabledAt_assignGlobalVariant _ _ k

theorem noticeShown_remoteBuildplateStep (vcat : VariantCatalog)
    (defId : String) (bpc : Option String) (s : MMState) :
    (remoteBuildplateStep vcat defId bpc s).noticeShown = s.noticeShown := by
  unfold remoteBuildplateStep
  (repeat' split) <;>
    first
      | exact noticeShown_setGlobalVariantImpl _ _
      | exact noticeShown_assignGlobalVariant _ _

theorem enabledAt_withNotice (st : MMState) (names : List String) (k : String) :
    enabledAt { st with noticeShown := true, noticeExtruders := names } k =
      enabledAt st k := rfl

/-- C3: corrected form of the all-extruders-absent claim.  When every
reported extruder lacks both a nozzle id and a material GUID (and the
report covers the machine's extruders with distinct positions), the
extruder at the lowest reported position stays enabled and every other
reported extruder is disabled; the user-visible notice appears exactly
when some extruder was actually disabled, i.e. when more than one extruder
was reported — a single-extruder report disables nothing and shows no
notice, contrary to the claim's unconditional notice. -/
theorem C3_amended (mcat : MaterialCatalog) (vcat : VariantCatalog)
    (qgs : List (String × QualityGroup)) (cfg : PrinterConfiguration)
    (s : MMState) (g : GlobalStack) (m : Nat)
    (hg : s.global = some g)
    (htype : cfg.printerType = g.definitionName)
    (hall : ∀ e ∈ cfg.extruderConfigurations,
      presentStr e.hotendID = false ∧ presentStr e.materialGuid = false)
    (hnd : (cfg.extruderConfigurations.map (fun e => toString e.position)).Nodup)
    (hcount : cfg.extruderConfigurations.length = g.extruders.length)
    (hkeys : ∀ e ∈ cfg.extruderConfigurations,
      (enabledAt s (toString e.position)).isSome)
    (hns : s.noticeShown = false)
    (hmin : minBy (fun a b => a ≤ b)
      (cfg.extruderConfigurations.map (fun e => e.position)) = some m) :
    (∀ e ∈ cfg.extruderConfigurations,
      enabledAt (applyRemoteConfiguration mcat vcat qgs cfg s)
        (toString e.position) = some (decide (e.position = m))) ∧
    (applyRemoteConfiguration mcat vcat qgs cfg s).noticeShown =
      cfg.extruderConfigurations.any (fun e => decide (e.position ≠ m)) ∧
    m ∈ cfg.extruderConfigurations.map (fun e => e.position) ∧
    (∀ e ∈ cfg.extruderConfigurations, m ≤ e.position) := by
  have hposnd : (cfg.extruderConfigurations.map (fun e => e.position)).Nodup := by
    have h2 : ((cfg.extruderConfigurations.map (fun e => e.position)).map
        (fun n => toString n)).Nodup := by
      rw [List.map_map]
      exact hnd
    exact List.Nodup.of_map _ h2
  have hmem_m : m ∈ cfg.extruderConfigurations.map (fun e => e.position) :=
    minBy_mem _ _ _ hmin
  have warm := minBy_le (fun a b : Nat => decide (a ≤ b))
    (fun a b => by
      rcases Nat.le_total a b with h | h
      · left; simpa
      · right; simpa)
    (fun a b c hab hbc => by
      simp only [decide_eq_true_eq] at hab hbc ⊢
      omega)
    (cfg.extruderConfigurations.map (fun e => e.position)) m hmin
  have hge : ∀ e ∈ cfg.extruderConfigurations, m ≤ e.position := by
    intro e he
    have h2 := warm e.position (List.mem_map.mpr ⟨e, he, rfl⟩)
    simpa using h2
  have hconv_notin : ∀ e ∈ cfg.extruderConfigurations,
      (decide (e.position ∉
        (cfg.extruderConfigurations.map (fun e => e.position)).erase m)) =
      decide (e.position = m) := by
    intro e he
    apply decide_eq_decide.mpr
    constructor
    · intro hnotin
      by_contra hne
      exact hnotin ((List.Nodup.mem_erase_iff hposnd).mpr
        ⟨hne, List.mem_map.mpr ⟨e, he, rfl⟩⟩)
    · intro heq hmemerase
      exact ((List.Nodup.mem_erase_iff hposnd).mp hmemerase).1 heq
  have hconv_in : ∀ e ∈ cfg.extruderConfigurations,
      (decide (e.position ∈
        (cfg.extruderConfigurations.map (fun e => e.position)).erase m)) =
      decide (e.position ≠ m) := by
    intro e he
    apply decide_eq_decide.mpr
    constructor
    · intro hmemerase
      exact ((List.Nodup.mem_erase_iff hposnd).mp hmemerase).1
    · intro hne
      exact (List.Nodup.mem_erase_iff hposnd).mpr
        ⟨hne, List.mem_map.mpr ⟨e, he, rfl⟩⟩
  have hfilter : cfg.extruderConfigurations.filter
      (fun e => !(presentStr e.hotendID) || !(presentStr e.materialGuid)) =
      cfg.extruderConfigurations :=
    List.filter_eq_self.mpr (fun e he => by
      obtain ⟨h1, h2⟩ := hall e he
      simp [h1, h2])
  obtain ⟨glob, cqg2, cqcg2, crm2, dep2, ev2, ns2, nx2⟩ := s
  obtain rfl : glob = some g := hg
  obtain rfl : ns2 = false := hns
  unfold applyRemoteConfiguration
  dsimp only
  rw [if_neg (not_not_intro htype)]
  rw [hfilter]
  rw [pyDedup_eq_self _ [] hposnd (fun x hx h => absurd h (List.not_mem_nil x))]
  rw [List.length_map, hcount]
  rw [if_pos (rfl : g.extruders.length = g.extruders.length)]
  rw [hmin]
  dsimp only
  refine ⟨?_, ?_, hmem_m, hge⟩
  · intro e he
    split
    · rw [enabledAt_withNotice, enabledAt_updateQualityWithMaterial,
        enabledAt_remoteBuildplateStep, enabledAt_updateNumberExtrudersEnabled,
        enabledAt_updateDefaultExtruder]
      rw [remoteFold_enabledAt_self mcat vcat g.definitionId
        cfg.buildplateConfiguration
        ((cfg.extruderConfigurations.map (fun e => e.position)).erase m)
        cfg.extruderConfigurations _ e he hnd
        (by rw [enabledAt_emit]; exact hkeys e he)]
      rw [hconv_notin e he]
    · rw [enabledAt_updateQualityWithMaterial,
        enabledAt_remoteBuildplateStep, enabledAt_updateNumberExtrudersEnabled,
        enabledAt_updateDefaultExtruder]
      rw [remoteFold_enabledAt_self mcat vcat g.definitionId
        cfg.buildplateConfiguration
        ((cfg.extruderConfigurations.map (fun e => e.position)).erase m)
        cfg.extruderConfigurations _ e he hnd
        (by rw [enabledAt_emit]; exact hkeys e he)]
      rw [hconv_notin e he]
  · split
    next hflag =>
      rw [remoteFold_msg] at hflag
      simp only [Bool.false_or] at hflag
      rw [any_congr_mem _ _ _ hconv_in] at hflag
      dsimp only
      exact hflag.symm
    next hflag =>
      rw [Bool.not_eq_true] at hflag
      rw [remoteFold_msg] at hflag
      simp only [Bool.false_or] at hflag
      rw [any_congr_mem _ _ _ hconv_in] at hflag
      rw [noticeShown_updateQualityWithMaterial, noticeShown_remoteBuildplateStep,
        noticeShown_updateNumberExtrudersEnabled, noticeShown_updateDefaultExtruder,
        remoteFold_noticeShown]
      rw [hflag]
      rfl

/-- C3 counterexample: a remote snapshot reporting a single extruder with
no hotend and no material GUID leaves that extruder enabled and shows no
notice — the claimed unconditional user-visible notice does not appear. -/
theorem C3_counterexample :
    (applyRemoteConfiguration emptyMaterialCatalog emptyVariantCatalog []
       remoteCfgOneEmpty demoState).noticeShown = false ∧
    enabledAt (applyRemoteConfiguration emptyMaterialCatalog emptyVariantCatalog []
       remoteCfgOneEmpty demoState) "0" = some true := by
  constructor
  · rfl
  · rfl

/-- C3 witness: the two-extruder scenario — both reported extruders lack
hotend and material, extruder 0 (the lowest) stays enabled, extruder 1 is
disabled, and the notice is shown. -/
theorem C3_amended_witness :
    (∀ e ∈ remoteCfgTwoEmpty.extruderConfigurations,
      enabledAt (applyRemoteConfiguration emptyMaterialCatalog
          emptyVariantCatalog [] remoteCfgTwoEmpty demoTwoExtruderState)
        (toString e.position) = some (decide (e.position = 0))) ∧
    (applyRemoteConfiguration emptyMaterialCatalog emptyVariantCatalog []
        remoteCfgTwoEmpty demoTwoExtruderState).noticeShown =
      remoteCfgTwoEmpty.extruderConfigurations.any
        (fun e => decide (e.position ≠ 0)) ∧
    0 ∈ remoteCfgTwoEmpty.extruderConfigurations.map (fun e => e.position) ∧
    (∀ e ∈ remoteCfgTwoEmpty.extruderConfigurations, 0 ≤ e.position) :=
  C3_amended emptyMaterialCatalog emptyVariantCatalog [] remoteCfgTwoEmpty
    demoTwoExtruderState demoTwoExtruderGlobal 0 rfl rfl
    (by decide) (by decide) (by decide) (by decide) rfl (by decide)
